import Mathlib

/-!
Verification development for the semantic analysis core of the Raven language
compiler.  The definitions below are a shallow embedding of the checker found in
`language/checker/src/check_code.rs` and `language/checker/src/check_impl_call.rs`,
together with models of the cooperating syntax-table primitives whose sources are
not part of the checker crate (the spec, sections 3, 4.1 and 4.2, describes them).
Definitions that are modelled from the spec rather than translated from checker
source carry a doc comment saying so.

Rust specifics are embedded as follows: machine integers become Nat/Int with
explicit wrap-around where the source casts; `panic!` and `.unwrap()` failures
become a dedicated `panicked` error constructor, distinct from the checker
returning `Err(ParsingError)`; the asynchronous waiter primitives are modelled
against the final (finished) symbol table, except for the dedicated temporal
model of the implementation-call resolution loop, which keeps the evolving
implementation graph explicit.  Recursion of the checker is fuel-indexed because
the operator rewriter recurses on rebuilt (not structurally smaller) effects;
running out of fuel is its own outcome, distinct from every behaviour of the
source program.
-/

namespace Raven

/-- Attributes attached to top level items.  Modelled from the spec: an
attribute is a name paired with one of an int, bool or string value (section 3);
`Basic` is a bare marker attribute. -/
inductive Attribute where
  | Basic (name : String)
  | Integer (name : String) (value : Int)
  | Bool (name : String) (value : Bool)
  | String (name : String) (value : String)
deriving DecidableEq

/-- The name carried by an attribute. -/
def attribute_name : Attribute → String
  | .Basic n => n
  | .Integer n _ => n
  | .Bool n _ => n
  | .String n _ => n

/-- Finds the first attribute with the given name, as `Attribute::find_attribute`. -/
def find_attribute (name : String) (attributes : List Attribute) : Option Attribute :=
  attributes.find? (fun a => attribute_name a == name)

/-- The integer payload of an attribute, if it is an integer attribute. -/
def as_int_attribute : Attribute → Option Int
  | .Integer _ v => some v
  | _ => none

/-- The boolean payload of an attribute, if it is a boolean attribute. -/
def as_bool_attribute : Attribute → Option Bool
  | .Bool _ v => some v
  | _ => none

/-- The string payload of an attribute, if it is a string attribute. -/
def as_string_attribute : Attribute → Option String
  | .String _ v => some v
  | _ => none

/-- Declaration-level data of a function: its qualified name.  Modelled from the
spec (section 3, FunctionData); only the name takes part in the checker logic
under verification. -/
structure FunctionData where
  name : String
deriving DecidableEq

/-- Declaration-level data of a struct or trait: qualified name, modifier
bitmask, attributes, and the registration-ordered list of member functions.
Modelled from the spec (section 3, StructData). -/
structure StructData where
  name : String
  modifiers : Nat
  attributes : List Attribute
  functions : List FunctionData
deriving DecidableEq

/-- Bit value of the `Trait` modifier; the spec (section 6) fixes the bitmask. -/
def Modifier_Trait : Nat := 16

/-- Tests a modifier bit, as `is_modifier`. -/
def is_modifier (modifiers bit : Nat) : Bool :=
  modifiers &&& bit != 0

mutual
/-- Finalized types.  Modelled from the spec (section 3, Type): a sum of a
resolved struct handle, a reference, an applied generic type, an array, and an
unresolved generic parameter with its bounds. -/
inductive FinalizedTypes where
  | Struct (s : FinalizedStruct)
  | Reference (inner : FinalizedTypes)
  | GenericType (name : String) (bounds : List FinalizedTypes)
  | Array (inner : FinalizedTypes)
  | Generic (name : String) (bounds : List FinalizedTypes)

/-- A resolved struct: its declaration data and its ordered fields.  Modelled
from the spec (section 3, FinalizedStruct). -/
inductive FinalizedStruct where
  | mk (data : StructData) (fields : List FinalizedMemberField)

/-- A struct member field with its modifiers. -/
inductive FinalizedMemberField where
  | mk (modifiers : Nat) (field : FinalizedField)

/-- A named, typed field. -/
inductive FinalizedField where
  | mk (name : String) (field_type : FinalizedTypes)
end

def FinalizedStruct.data : FinalizedStruct → StructData
  | .mk d _ => d

def FinalizedStruct.fields : FinalizedStruct → List FinalizedMemberField
  | .mk _ f => f

def FinalizedMemberField.modifiers : FinalizedMemberField → Nat
  | .mk m _ => m

def FinalizedMemberField.field : FinalizedMemberField → FinalizedField
  | .mk _ f => f

def FinalizedField.name : FinalizedField → String
  | .mk n _ => n

def FinalizedField.field_type : FinalizedField → FinalizedTypes
  | .mk _ t => t

mutual
/-- Structural equality of finalized types, embedding the derived `PartialEq`
of the source type. -/
def ftBeq : FinalizedTypes → FinalizedTypes → Bool
  | .Struct a, .Struct b => fsBeq a b
  | .Reference a, .Reference b => ftBeq a b
  | .GenericType n1 b1, .GenericType n2 b2 => n1 == n2 && ftListBeq b1 b2
  | .Array a, .Array b => ftBeq a b
  | .Generic n1 b1, .Generic n2 b2 => n1 == n2 && ftListBeq b1 b2
  | _, _ => false
termination_by structural a _ => a

/-- Pointwise equality of lists of finalized types. -/
def ftListBeq : List FinalizedTypes → List FinalizedTypes → Bool
  | [], [] => true
  | a :: as_, b :: bs => ftBeq a b && ftListBeq as_ bs
  | _, _ => false
termination_by structural a _ => a

/-- Structural equality of finalized structs. -/
def fsBeq : FinalizedStruct → FinalizedStruct → Bool
  | .mk d1 f1, .mk d2 f2 => d1 == d2 && fmfListBeq f1 f2
termination_by structural a _ => a

/-- Pointwise equality of lists of member fields. -/
def fmfListBeq : List FinalizedMemberField → List FinalizedMemberField → Bool
  | [], [] => true
  | a :: as_, b :: bs => fmfBeq a b && fmfListBeq as_ bs
  | _, _ => false
termination_by structural a _ => a

/-- Structural equality of member fields. -/
def fmfBeq : FinalizedMemberField → FinalizedMemberField → Bool
  | .mk m1 f1, .mk m2 f2 => m1 == m2 && ffBeq f1 f2
termination_by structural a _ => a

/-- Structural equality of fields. -/
def ffBeq : FinalizedField → FinalizedField → Bool
  | .mk n1 t1, .mk n2 t2 => n1 == n2 && ftBeq t1 t2
termination_by structural a _ => a
end

/-- Strips reference wrappers, the reference unwrapping used by the of-type
query (spec section 4.2). -/
def unwrap_ref : FinalizedTypes → FinalizedTypes
  | .Reference inner => unwrap_ref inner
  | t => t

/-- The underlying resolved struct of a type, after reference unwrapping;
`inner_struct` in the source panics when the type has no underlying struct,
which callers below model explicitly. -/
def inner_struct : FinalizedTypes → Option FinalizedStruct
  | t => match unwrap_ref t with
    | .Struct s => some s
    | _ => none

/-- The name of a type when it is not generic; `None` for generic types.  The
checker comment describes the guard as excluding generics, so struct names are
reported through references and arrays and both generic forms report nothing. -/
def name_safe : FinalizedTypes → Option String
  | .Struct s => some s.data.name
  | .Reference inner => name_safe inner
  | .Array inner => name_safe inner
  | .GenericType _ _ => none
  | .Generic _ _ => none

/-- Display form of a finalized type, used when building error messages; the
source `Display` writes a struct as its name and a reference with an ampersand. -/
def display : FinalizedTypes → String
  | .Struct s => s.data.name
  | .Reference inner => "&" ++ display inner
  | .Array inner => "[" ++ display inner ++ "]"
  | .GenericType n _ => n
  | .Generic n _ => n

/-- A registered implementation: the implementing struct, the implemented
trait, and the method instances the impl exposes.  Modelled from the spec
(sections 4.1 and 4.2): the impl graph is consulted by name of the base struct
and of the trait. -/
structure ImplEntry where
  base : String
  trait_name : String
  functions : List FunctionData
deriving DecidableEq

/-- Whether `sub` is of type `sup`.  Modelled from the spec (section 4.2):
true iff the two refer to the same struct after reference unwrapping, or `sup`
is a trait implemented for the underlying struct of `sub`, or `sub` is a
generic whose bounds syntactically include `sup`. -/
def of_type (impls : List ImplEntry) (sub sup : FinalizedTypes) : Bool :=
  match unwrap_ref sub with
  | .Generic _ bounds => bounds.any (fun b => ftBeq b sup)
  | .Struct s1 =>
    match unwrap_ref sup with
    | .Struct s2 =>
      fsBeq s1 s2 ||
        (is_modifier s2.data.modifiers Modifier_Trait &&
          impls.any (fun e => e.base == s1.data.name && e.trait_name == s2.data.name))
    | _ => false
  | _ => false

/-- Synchronous of-type query.  Modelled from the spec (section 4.2): returns
`(bool, usedImpl)` without suspending, consulting only the impls it is given;
with `none` no impl graph is available, so only the structural cases hold. -/
def of_type_sync (sub sup : FinalizedTypes) (impls : Option (List ImplEntry)) : Bool × Bool :=
  match unwrap_ref sub with
  | .Generic _ bounds => (bounds.any (fun b => ftBeq b sup), false)
  | .Struct s1 =>
    match unwrap_ref sup with
    | .Struct s2 =>
      if fsBeq s1 s2 then (true, false)
      else
        match impls with
        | some found =>
          if is_modifier s2.data.modifiers Modifier_Trait &&
              found.any (fun e => e.base == s1.data.name && e.trait_name == s2.data.name) then
            (true, true)
          else (false, false)
        | none => (false, false)
    | _ => (false, false)
  | _ => (false, false)

/-- Splits a character list at every `::` separator, the computable core of
the qualified-name splitting the checker performs with `split("::")`. -/
def split_namespaces : List Char → List (List Char)
  | [] => [[]]
  | ':' :: ':' :: rest => [] :: split_namespaces rest
  | c :: rest =>
    match split_namespaces rest with
    | seg :: segs => (c :: seg) :: segs
    | [] => [[c]]

/-- The simple (last) segment of a qualified `::` name, as
`name.split("::").last().unwrap()`. -/
def last_segment (name : String) : String :=
  String.mk ((split_namespaces name.toList).getLastD [])

/-- Methods matching a simple name on a type.  Modelled from the spec (section
4.5): for a generic receiver every bound trait is searched for functions whose
simple name matches; for a struct receiver its own function list is searched. -/
def find_method (types : FinalizedTypes) (method : String) :
    Option (List (FinalizedTypes × FunctionData)) :=
  match unwrap_ref types with
  | .Generic _ bounds =>
    some (bounds.flatMap (fun b =>
      match unwrap_ref b with
      | .Struct s =>
        (s.data.functions.filter (fun f => last_segment f.name == method)).map (fun f => (b, f))
      | _ => []))
  | .Struct s =>
    some ((s.data.functions.filter (fun f => last_segment f.name == method)).map
      (fun f => (types, f)))
  | _ => none

/-- Source position and message of a checker error, as `ParsingError::new`. -/
structure ParsingError where
  file : String
  start : Nat × Nat
  start_offset : Nat
  stop : Nat × Nat
  stop_offset : Nat
  message : String
deriving DecidableEq

/-- An empty-span error carrying a message, as `placeholder_error`. -/
def placeholder_error (message : String) : ParsingError :=
  ⟨"", (0, 0), 0, (0, 0), 0, message⟩

/-- The outcome of checker code that can fail: a returned `ParsingError`, a
Rust `panic!` or failed `.unwrap()`, or exhaustion of the recursion fuel of the
embedding (not a behaviour of the source). -/
inductive CheckError where
  | parseErr (e : ParsingError)
  | panicked (msg : String)
  | outOfFuel
deriving DecidableEq

/-- A generic function signature after finalization, as
`CodelessFinalizedFunction`: declaration data, generic parameters with bounds,
arguments, and the optional declared return type. -/
structure CodelessFinalizedFunction where
  data : FunctionData
  generics : List (String × List FinalizedTypes)
  arguments : List FinalizedMemberField
  return_type : Option FinalizedTypes

/-- The symbol table in its finished state.  Modelled from the spec (section
4.1): registration-ordered operator index, struct index, function index, the
implementation graph, and the generic bindings of the current resolver scope. -/
structure Syntax where
  operations : List StructData
  structs : List FinalizedStruct
  functions : List CodelessFinalizedFunction
  impls : List ImplEntry
  generics : List (String × FinalizedTypes)

/-- Looks up a value bound to a name in an association list, first binding wins. -/
def assoc_lookup (map : List (String × FinalizedTypes)) (name : String) :
    Option FinalizedTypes :=
  (map.find? (fun p => p.1 == name)).map (fun p => p.2)

mutual
/-- Generic substitution, as `set_generic` (spec section 4.2): rewrites every
generic whose name is a key of the map into the mapped type, descending through
type subterms. -/
def set_generic (map : List (String × FinalizedTypes)) : FinalizedTypes → FinalizedTypes
  | .Struct s => .Struct s
  | .Reference inner => .Reference (set_generic map inner)
  | .Array inner => .Array (set_generic map inner)
  | .GenericType n bounds => .GenericType n (set_generic_list map bounds)
  | .Generic n bounds =>
    match assoc_lookup map n with
    | some t => t
    | none => .Generic n (set_generic_list map bounds)
termination_by structural t => t

/-- Substitution mapped over a list of types. -/
def set_generic_list (map : List (String × FinalizedTypes)) :
    List FinalizedTypes → List FinalizedTypes
  | [] => []
  | t :: rest => set_generic map t :: set_generic_list map rest
termination_by structural t => t
end

/-- Rewrites generics of a type using the resolver scope of the syntax table,
as `fix_generics`.  Modelled from the spec (section 4.5). -/
def fix_generics (syn : Syntax) (types : FinalizedTypes) : FinalizedTypes :=
  set_generic syn.generics types

/-- The operation pattern attribute of an operator struct. -/
def operation_attribute (s : StructData) : Option String :=
  (find_attribute "operation" s.attributes).bind as_string_attribute

/-- Resolves an operator from a set of syntactic candidates, as the
`OperationGetter` waiter.  Modelled from the spec (section 4.1): the operator
whose `operation` attribute equals one of the candidates, longest candidate
first, registration order among equal lengths. -/
def get_operator (syn : Syntax) (candidates : List String) : Option StructData :=
  (syn.operations.foldl (fun acc s =>
    match operation_attribute s with
    | some a =>
      if candidates.contains a &&
          (match acc with
           | none => true
           | some (_, b) => a.length > String.length b) then
        some (s, a)
      else acc
    | none => acc) none).map (fun p => p.1)

/-- Resolves a struct or trait by qualified name, as the `Syntax::get_struct`
waiter against the finished table.  Modelled from the spec (section 4.1). -/
def get_struct (syn : Syntax) (name : String) : Option FinalizedStruct :=
  syn.structs.find? (fun s => s.data.name == name)

/-- Resolves a function declaration by qualified name, as the
`Syntax::get_function` waiter against the finished table.  Modelled from the
spec (section 4.1). -/
def get_function (syn : Syntax) (name : String) : Option FunctionData :=
  (syn.functions.find? (fun f => f.data.name == name)).map (fun f => f.data)

/-- The signature-finalized form of a declared function, as the
`AsyncDataGetter` waiter.  Modelled from the spec (section 4.1); the finished
table always answers, so an unknown name yields a bare signature. -/
def async_data_getter (syn : Syntax) (data : FunctionData) : CodelessFinalizedFunction :=
  (syn.functions.find? (fun f => f.data.name == data.name)).getD ⟨data, [], [], none⟩

/-- Runs the `ImplWaiter` against the finished implementation graph.  Modelled
from the spec (sections 4.1 and 4.2): once the graph is finished the waiter
yields the method instances of the impls proving `return_type` implements
`data`, and produces the error it carries when there is none. -/
def ImplWaiter_run (syn : Syntax) (return_type data : FinalizedTypes)
    (error : ParsingError) : Except CheckError (List FunctionData) :=
  match inner_struct return_type, inner_struct data with
  | some b, some t =>
    let found := syn.impls.filter (fun e => e.base == b.data.name && e.trait_name == t.data.name)
    if found.isEmpty then .error (.parseErr error)
    else .ok (found.flatMap (fun e => e.functions))
  | _, _ => .error (.parseErr error)

/-- Statement kinds, as `ExpressionType`. -/
inductive ExpressionType where
  | Break
  | Return
  | Line
deriving DecidableEq

mutual
/-- Unchecked effects, the expression IR consumed by the checker, as the
`Effects` enum.  String payloads stand for the unparsed type hints of the
source; the float payload carries the raw bit pattern, which the checker never
interprets. -/
inductive Effects where
  | NOP
  | Paren (inner : Effects)
  | CodeBody (body : CodeBody)
  | MethodCall (calling : Option Effects) (method : String) (effects : List Effects)
      (returning : Option String)
  | ImplementationCall (calling : Effects) (traits : String) (method : String)
      (effects : List Effects) (returning : Option String)
  | Operation (operation : String) (values : List Effects)
  | CreateStruct (target : String) (effects : List (String × Effects))
  | Load (effect : Effects) (target : String)
  | LoadVariable (name : String)
  | CreateVariable (name : String) (effect : Effects)
  | Set (first : Effects) (second : Effects)
  | CompareJump (effect : Effects) (first : String) (second : String)
  | Jump (jumping : String)
  | CreateArray (effects : List Effects)
  | Float (float : Nat)
  | Int (int : Int)
  | UInt (uint : Nat)
  | Bool (value : Bool)
  | String (value : String)
  | Char (value : Char)

/-- An unchecked code body: its label and its statements, as `CodeBody`. -/
inductive CodeBody where
  | mk (label : String) (expressions : List Expression)

/-- A statement: its kind and its effect, as `Expression`. -/
inductive Expression where
  | mk (expression_type : ExpressionType) (effect : Effects)
end

def CodeBody.label : CodeBody → String
  | .mk l _ => l

def CodeBody.expressions : CodeBody → List Expression
  | .mk _ e => e

def Expression.expression_type : Expression → ExpressionType
  | .mk t _ => t

def Expression.effect : Expression → Effects
  | .mk _ e => e

mutual
/-- Checked effects, as the `FinalizedEffects` enum, with exactly the variants
the checker constructs. -/
inductive FinalizedEffects where
  | CreateVariable (name : String) (effect : FinalizedEffects) (types : FinalizedTypes)
  | CodeBody (body : FinalizedCodeBody)
  | Set (first : FinalizedEffects) (second : FinalizedEffects)
  | MethodCall (alloc : Option FinalizedEffects) (method : CodelessFinalizedFunction)
      (effects : List FinalizedEffects)
  | VirtualCall (index : Nat) (method : CodelessFinalizedFunction)
      (effects : List FinalizedEffects)
  | GenericVirtualCall (index : Nat) (target : FunctionData)
      (method : CodelessFinalizedFunction) (effects : List FinalizedEffects)
  | GenericMethodCall (method : CodelessFinalizedFunction) (found_trait : FinalizedTypes)
      (effects : List FinalizedEffects)
  | Downcast (effect : FinalizedEffects) (target : FinalizedTypes)
  | CompareJump (effect : FinalizedEffects) (first : String) (second : String)
  | Jump (jumping : String)
  | LoadVariable (name : String)
  | Load (effect : FinalizedEffects) (target : String) (types : FinalizedStruct)
  | CreateStruct (alloc : Option FinalizedEffects) (target : FinalizedTypes)
      (effects : List (Nat × FinalizedEffects))
  | CreateArray (types : Option FinalizedTypes) (effects : List FinalizedEffects)
  | HeapStore (inner : FinalizedEffects)
  | HeapAllocate (types : FinalizedTypes)
  | Float (float : Nat)
  | UInt (uint : Nat)
  | Bool (value : Bool)
  | String (value : String)
  | Char (value : Char)

/-- A checked code body, as `FinalizedCodeBody`: statements, label, and the
returning flag. -/
inductive FinalizedCodeBody where
  | mk (expressions : List FinalizedExpression) (label : String) (returning : Bool)

/-- A checked statement, as `FinalizedExpression`. -/
inductive FinalizedExpression where
  | mk (expression_type : ExpressionType) (effect : FinalizedEffects)
end

/-- Builds a checked code body, as `FinalizedCodeBody::new`. -/
def FinalizedCodeBody.new (expressions : List FinalizedExpression) (label : String)
    (returning : Bool) : FinalizedCodeBody :=
  .mk expressions label returning

def FinalizedCodeBody.expressions : FinalizedCodeBody → List FinalizedExpression
  | .mk e _ _ => e

def FinalizedCodeBody.label : FinalizedCodeBody → String
  | .mk _ l _ => l

def FinalizedCodeBody.returning : FinalizedCodeBody → Bool
  | .mk _ _ r => r

/-- Builds a checked statement, as `FinalizedExpression::new`. -/
def FinalizedExpression.new (expression_type : ExpressionType)
    (effect : FinalizedEffects) : FinalizedExpression :=
  .mk expression_type effect

def FinalizedExpression.expression_type : FinalizedExpression → ExpressionType
  | .mk t _ => t

def FinalizedExpression.effect : FinalizedExpression → FinalizedEffects
  | .mk _ e => e

/-- The variable environment of a body being checked, as
`SimpleVariableManager`; the association list embeds its `variables` map (Lean
reserves that word, hence the underscore). -/
structure SimpleVariableManager where
  variables_ : List (String × FinalizedTypes)

/-- Looks a variable up by name. -/
def SimpleVariableManager.lookup (vars : SimpleVariableManager) (name : String) :
    Option FinalizedTypes :=
  assoc_lookup vars.variables_ name

/-- Binds a variable, replacing any earlier binding of the same name, as the
map insertion of the source. -/
def SimpleVariableManager.insert (vars : SimpleVariableManager) (name : String)
    (types : FinalizedTypes) : SimpleVariableManager :=
  ⟨(name, types) :: vars.variables_⟩

/-- A primitive struct of the standard library registered in the symbol table,
used by the typed literals.  Modelled from the spec (section 8, property 5). -/
def primStruct (name : String) : FinalizedStruct :=
  .mk ⟨name, 0, [], []⟩ []

/-- The void struct, as `VOID`. -/
def VOID : FinalizedStruct := primStruct "void"

/-- The return type of a checked effect under a variable environment, as
`FinalizedEffects::get_return`.  Modelled from the spec (section 3): every
finalized effect except the terminal forms has a determinable return type;
literals type as the primitive structs, a string as a reference to `str`
(section 8, property 5). -/
def get_return (effect : FinalizedEffects) (vars : SimpleVariableManager) :
    Option FinalizedTypes :=
  match effect with
  | .CreateVariable _ _ types => some types
  | .CodeBody _ => none
  | .Set _ second => get_return second vars
  | .MethodCall _ method _ => method.return_type
  | .VirtualCall _ method _ => method.return_type
  | .GenericVirtualCall _ _ method _ => method.return_type
  | .GenericMethodCall method _ _ => method.return_type
  | .Downcast _ target => some target
  | .CompareJump _ _ _ => none
  | .Jump _ => none
  | .LoadVariable name => vars.lookup name
  | .Load _ target types =>
    (types.fields.find? (fun f => f.field.name == target)).map (fun f => f.field.field_type)
  | .CreateStruct _ target _ => some target
  | .CreateArray types _ => types.map (fun inner => .Array inner)
  | .HeapStore inner => get_return inner vars
  | .HeapAllocate types => some types
  | .Float _ => some (.Struct (primStruct "f64"))
  | .UInt _ => some (.Struct (primStruct "u64"))
  | .Bool _ => some (.Struct (primStruct "bool"))
  | .String _ => some (.Reference (.Struct (primStruct "str")))
  | .Char _ => some (.Struct (primStruct "char"))

/-- Wraps a finalized effect in a heap store, as `store`. -/
def store (effect : FinalizedEffects) : FinalizedEffects :=
  .HeapStore effect

/-- The `i64 as u64` cast of the source: the twos-complement bit pattern, the
value modulo two to the sixty-fourth. -/
def int_as_u64 (int : Int) : Nat :=
  (int.emod (2 ^ 64)).toNat

/-- The declared priority of an operator struct, exactly as the checker reads
it in `assign_with_priority`. -/
def op_priority_of (s : StructData) : Int :=
  ((find_attribute "priority" s.attributes).map
    (fun inner => (as_int_attribute inner).getD 0)).getD 0

/-- The declared associativity flag of an operator struct, exactly as the
checker reads it in `assign_with_priority`. -/
def op_parse_left_of (s : StructData) : Bool :=
  ((find_attribute "parse_left" s.attributes).map
    (fun inner => (as_bool_attribute inner).getD false)).getD false

/-- Re-associates an outer operator with the nested operator found as its last
argument, as `assign_with_priority`.  The first component of the result is the
operator that becomes the root and the second its argument list. -/
def assign_with_priority (operation : String) (found : StructData)
    (values : List Effects) (inner_operator : String) (inner_data : StructData)
    (inner_effects : List Effects) (inner_array : Bool) :
    Except CheckError (Option StructData × List Effects) :=
  let op_priority := op_priority_of found
  let op_parse_left := op_parse_left_of found
  let lhs_priority := op_priority_of inner_data
  if lhs_priority < op_priority || (!op_parse_left && lhs_priority == op_priority) then
    if inner_array then
      match values.getLast? with
      | none => .error (.panicked "called unwrap on None")
      | some (Effects.CreateArray inner) =>
        match inner_effects with
        | [] => .error (.panicked "index out of bounds")
        | first :: rest =>
          .ok (some inner_data,
            Effects.Operation operation
              (values.dropLast ++ [Effects.CreateArray (inner ++ [first])]) :: rest)
      | some _ => .error (.panicked "Assumed op args ended with an array when they did not!")
    else
      match inner_effects with
      | [] => .error (.panicked "index out of bounds")
      | first :: rest =>
        .ok (some inner_data, Effects.Operation operation (values ++ [first]) :: rest)
  else
    .ok (some found, values ++ [Effects.Operation inner_operator inner_effects])

/-- Typechecks arguments against parameters pairwise, as the loop body of
`check_args`: the argument type is generic-fixed and tested with `of_type`;
when it only matches through an implementation (the impl-free synchronous query
fails) the argument is replaced by a downcast after the impl waiter resolves. -/
def check_args_go (syn : Syntax) (vars : SimpleVariableManager) :
    List FinalizedMemberField → List FinalizedEffects →
    Except CheckError (Bool × List FinalizedEffects)
  | [], rest => .ok (true, rest)
  | _ :: _, [] => .ok (false, [])
  | p :: ps, a :: rest =>
    match get_return a vars with
    | none => .ok (false, a :: rest)
    | some returning =>
      let inner := fix_generics syn returning
      let other := p.field.field_type
      if !of_type syn.impls inner other then .ok (false, a :: rest)
      else if !(of_type_sync inner other none).1 then
        match get_return a vars with
        | none => .error (.panicked "called unwrap on None")
        | some return_type =>
          match ImplWaiter_run syn return_type other
              (placeholder_error "Failed to find impl! Report this!") with
          | .error _ => .error (.panicked "called unwrap on Err")
          | .ok _funcs =>
            match check_args_go syn vars ps rest with
            | .error e => .error e
            | .ok (ok, rest2) => .ok (ok, FinalizedEffects.Downcast a other :: rest2)
      else
        match check_args_go syn vars ps rest with
        | .error e => .error e
        | .ok (ok, rest2) => .ok (ok, a :: rest2)

/-- Typechecks a full argument list against a function signature, as
`check_args`: arity first, then the pairwise loop. -/
def check_args (function : CodelessFinalizedFunction) (args : List FinalizedEffects)
    (syn : Syntax) (vars : SimpleVariableManager) :
    Except CheckError (Bool × List FinalizedEffects) :=
  if function.arguments.length != args.length then .ok (false, args)
  else check_args_go syn vars function.arguments args

/-- Infers a generic substitution by unifying one parameter type against one
argument type.  Modelled from the spec (section 4.2, `extract_generics`). -/
def unify_generic : FinalizedTypes → FinalizedTypes → List (String × FinalizedTypes)
  | .Generic n _, t => [(n, t)]
  | .Reference a, .Reference b => unify_generic a b
  | .Array a, .Array b => unify_generic a b
  | _, _ => []

/-- Infers a substitution map from all parameter-argument pairs.  Modelled from
the spec (section 4.2). -/
def extract_generics (params : List FinalizedMemberField)
    (args : List FinalizedTypes) : List (String × FinalizedTypes) :=
  (params.zip args).flatMap (fun p => unify_generic p.1.field.field_type p.2)

/-- Substitutes a member field, as the argument rewriting of degenericing. -/
def set_generic_field (map : List (String × FinalizedTypes))
    (field : FinalizedMemberField) : FinalizedMemberField :=
  .mk field.modifiers (.mk field.field.name (set_generic map field.field.field_type))

/-- Produces the specialized form of a generic function at a call site.
Modelled from the spec (section 4.2, degenericing): the substitution is
inferred from the concrete argument effects, the name gains a deterministic
suffix derived from it, arguments and return are substituted, and the generic
parameters are discharged. -/
def degeneric (_syn : Syntax) (method : CodelessFinalizedFunction)
    (effects : List FinalizedEffects) (vars : SimpleVariableManager)
    (_returning : Option FinalizedTypes) : CodelessFinalizedFunction :=
  let argTypes := effects.map (fun e => (get_return e vars).getD (.Struct VOID))
  let map := extract_generics method.arguments argTypes
  { data := ⟨method.data.name ++ "_" ++ (map.map (fun p => display p.2)).foldl (· ++ ·) ""⟩,
    generics := [],
    arguments := method.arguments.map (set_generic_field map),
    return_type := method.return_type.map (set_generic map) }

/-- Finalizes a method call, as `check_method`: a generic target is degenericed
and emitted directly; otherwise the arguments are typechecked, a failure
reporting the incorrect-args error, and the call is emitted with a heap
allocation for the return value when the method returns one. -/
def check_method (syn : Syntax) (method : CodelessFinalizedFunction)
    (effects : List FinalizedEffects) (vars : SimpleVariableManager)
    (returning : Option FinalizedTypes) : Except CheckError FinalizedEffects :=
  if method.generics.length != 0 then
    let method2 := degeneric syn method effects vars returning
    .ok (match method2.return_type with
      | some found => .MethodCall (some (.HeapAllocate found)) method2 effects
      | none => .MethodCall none method2 effects)
  else
    match check_args method effects syn vars with
    | .error e => .error e
    | .ok (false, _effects2) =>
      .error (.parseErr (placeholder_error
        ("Incorrect args to method " ++ method.data.name)))
    | .ok (true, effects2) =>
      .ok (match method.return_type with
        | some found => .MethodCall (some (.HeapAllocate found)) method effects2
        | none => .MethodCall none method effects2)

/-- Parses and finalizes an optional return-type hint, as the
`Syntax::parse_type` calls of the checker.  Modelled from the spec (section
4.1); an unknown name is the bounds error of the source. -/
def parse_returning (syn : Syntax) : Option String →
    Except CheckError (Option FinalizedTypes)
  | none => .ok none
  | some name =>
    match get_struct syn name with
    | some s => .ok (some (.Struct s))
    | none => .error (.parseErr (placeholder_error "Bounds error!"))

/-- Scans the method instances an impl waiter returned for one whose simple
name matches (an empty requested name matches anything) and finalizes the call,
as the result loop of `try_get_impl` in the `ImplementationCall` arm; a failed
`check_method` there is a panic of the source. -/
def try_get_impl_scan (syn : Syntax) (vars : SimpleVariableManager)
    (effects : List FinalizedEffects) (returning : Option String) (method : String) :
    List FunctionData → Except CheckError (Option FinalizedEffects)
  | [] => .ok none
  | temp :: rest =>
    if last_segment temp.name == method || method == "" then
      let found := async_data_getter syn temp
      match parse_returning syn returning with
      | .error e => .error e
      | .ok returning2 =>
        match check_method syn found effects vars returning2 with
        | .ok out => .ok (some out)
        | .error _ => .error (.panicked ("Failed " ++ temp.name))
    else try_get_impl_scan syn vars effects returning method rest

/-- One attempt of the `ImplementationCall` arm to resolve through the finished
implementation graph, as `try_get_impl` of `check_code.rs`. -/
def try_get_impl_final (syn : Syntax) (vars : SimpleVariableManager)
    (finding_return_type data : FinalizedTypes) (inner_name : String)
    (method : String) (returning : Option String) (effects : List FinalizedEffects) :
    Except CheckError (Option FinalizedEffects) :=
  match ImplWaiter_run syn finding_return_type data
      (placeholder_error
        ("Nothing implements " ++ inner_name ++ " for " ++ display finding_return_type)) with
  | .error e => .error e
  | .ok result => try_get_impl_scan syn vars effects returning method result

/-- Scans the trait function list for the requested method and emits the
virtual dispatch, as the indexed loop over `data.inner_struct().data.functions`
of the `ImplementationCall` arm; `none` means no function matched. -/
def impl_virtual_scan (syn : Syntax) (vars : SimpleVariableManager)
    (finding_return_type : FinalizedTypes) (finalized_effects : List FinalizedEffects)
    (method : String) :
    List FunctionData → Nat → Except CheckError (Option FinalizedEffects)
  | [], _ => .ok none
  | found :: rest, i =>
    if found.name == method then
      .ok (some (.VirtualCall i (async_data_getter syn found) finalized_effects))
    else if last_segment found.name == method then
      match find_method finding_return_type method with
      | none => .error (.panicked "called unwrap on None")
      | some target =>
        if target.length > 1 then
          .error (.parseErr (placeholder_error ("Ambiguous function " ++ method)))
        else
          match target.getLast? with
          | none => .error (.parseErr (placeholder_error ("Unknown function " ++ method)))
          | some (_, target2) =>
            match finalized_effects.head? with
            | none => .error (.panicked "index out of bounds")
            | some first =>
              match get_return first vars with
              | none => .error (.panicked "called unwrap on None")
              | some return_type =>
                match unwrap_ref return_type, return_type with
                | _, .Generic _ _ =>
                  .ok (some (.GenericVirtualCall i target2
                    (async_data_getter syn found) finalized_effects))
                | _, _ =>
                  .ok (some (.VirtualCall i (async_data_getter syn target2)
                    finalized_effects))
    else impl_virtual_scan syn vars finding_return_type finalized_effects method rest (i + 1)

/-- Scans the implementation graph for an impl of any trait on the receiver
providing a method of the given simple name and finalizes the first call that
typechecks, as the `TraitImplWaiter`.  Modelled from the spec (section 4.1). -/
def trait_impl_waiter_go (syn : Syntax) (vars : SimpleVariableManager)
    (effects : List FinalizedEffects) (returning : Option FinalizedTypes)
    (method : String) : List FunctionData → Except CheckError FinalizedEffects
  | [] => .error (.parseErr (placeholder_error ("Unknown method " ++ method)))
  | f :: rest =>
    if last_segment f.name == method then
      match check_method syn (async_data_getter syn f) effects vars returning with
      | .ok out => .ok out
      | .error _ => trait_impl_waiter_go syn vars effects returning method rest
    else trait_impl_waiter_go syn vars effects returning method rest

/-- Runs the `TraitImplWaiter` against the finished graph: candidate functions
are those of the impls registered for the receiver type.  Modelled from the
spec (section 4.1). -/
def trait_impl_waiter (syn : Syntax) (vars : SimpleVariableManager)
    (effects : List FinalizedEffects) (returning : Option FinalizedTypes)
    (method : String) (return_type : FinalizedTypes) : Except CheckError FinalizedEffects :=
  match inner_struct return_type with
  | some base =>
    trait_impl_waiter_go syn vars effects returning method
      ((syn.impls.filter (fun e => e.base == base.data.name)).flatMap (fun e => e.functions))
  | none => .error (.parseErr (placeholder_error ("Unknown method " ++ method)))

/-- Whether a string contains the given substring. -/
def contains_substring (haystack needle : String) : Bool :=
  (haystack.splitOn needle).length != 1

/-- The pure rewriting step of the `Operation` arm (`check_code.rs` lines 78
to 192): pops the last argument, unwraps a trailing array, splices adjacent
operator patterns through the operator index, and re-associates through
`assign_with_priority`; yields the resolved outer operator (when one was
already found) and the rewritten argument list.  The source mutates a popped
local array in the not-found branches and then drops it, so there only the
panic on a malformed array is observable. -/
def operation_rewrite (syn : Syntax) (operation : String) (values : List Effects)
    (error : ParsingError) : Except CheckError (Option StructData × List Effects) :=
  match values.getLast? with
  | none => .ok (none, values)
  | some last0 =>
    let values0 := values.dropLast
    let reading_last : Option (List Effects) × Effects :=
      match last0 with
      | .CreateArray effs =>
        match effs.getLast? with
        | some le => (some effs.dropLast, le)
        | none => (none, Effects.CreateArray [])
      | _ => (none, last0)
    let reading_array := reading_last.1
    match reading_last.2 with
    | .Operation inner_operation effs =>
      if operation.endsWith "\x7b\x7d" && inner_operation.startsWith "\x7b\x7d" then
        let combined := (operation.dropRight 2) ++ inner_operation
        let new_operation_cands :=
          if operation.startsWith "\x7b\x7d" && inner_operation.endsWith "\x7b\x7d" then
            (List.range (combined.length - operation.length - 2)).map
              (fun i => combined.take (operation.length + i))
          else [combined]
        match get_operator syn new_operation_cands with
        | some found =>
          match operation_attribute found with
          | none => .error (.panicked "called unwrap on None")
          | some new_operation =>
            let inner_array := reading_array.isSome
            let values1 :=
              match reading_array with
              | some fnd => values0 ++ [Effects.CreateArray fnd]
              | none => values0
            if new_operation.length ≥ combined.length then
              if inner_array then
                match values1.getLast? with
                | none => .error (.panicked "called unwrap on None")
                | some (Effects.CreateArray lastArr) =>
                  .ok (some found, values1.dropLast ++ [Effects.CreateArray (lastArr ++ effs)])
                | some _ => .ok (some found, values1)
              else .ok (some found, values1 ++ effs)
            else
              let new_inner :=
                "\x7b\x7d" ++ combined.drop ((new_operation.replace "\x7b+\x7d" "\x7b\x7d").length)
              match get_operator syn [new_inner] with
              | none => .error (.parseErr error)
              | some inner_data =>
                assign_with_priority new_operation found values1 new_inner inner_data effs
                  inner_array
        | none =>
          match reading_array with
          | some found2 =>
            match found2.getLast? with
            | none => .error (.panicked "called unwrap on None")
            | some (Effects.CreateArray _) => .ok (none, values0)
            | some _ => .error (.panicked "Expected array!")
          | none =>
            match get_operator syn [operation] with
            | none => .error (.parseErr error)
            | some outer_data =>
              match get_operator syn [inner_operation] with
              | none => .error (.parseErr error)
              | some inner_data =>
                assign_with_priority operation outer_data values0 inner_operation inner_data
                  effs false
      else
        match reading_array with
        | some found2 =>
          match found2.getLast? with
          | none => .error (.panicked "called unwrap on None")
          | some (Effects.CreateArray _) => .ok (none, values0)
          | some _ => .error (.panicked "Expected array!")
        | none => .ok (none, values0 ++ [Effects.Operation inner_operation effs])
    | last =>
      match reading_array with
      | some found2 =>
        match found2.getLast? with
        | none => .error (.panicked "called unwrap on None")
        | some (Effects.CreateArray _) => .ok (none, values0)
        | some _ => .error (.panicked "Expected array!")
      | none => .ok (none, values0 ++ [last])

/-- The variadic-placeholder adjustment of the `Operation` arm (`check_code.rs`
lines 204 to 209): when the resolved operator declares a variadic argument and
the first value is not already an array, the first value is moved to the end
wrapped in a one-element array. -/
def operation_variadic_adjust (op_attr : String) (values : List Effects) :
    Except CheckError (List Effects) :=
  if contains_substring op_attr "\x7b+\x7d" then
    match values.head? with
    | none => .error (.panicked "called unwrap on None")
    | some (Effects.CreateArray _) => .ok values
    | some first => .ok (values.drop 1 ++ [Effects.CreateArray [first]])
  else .ok values

/-- Checks every array element type against the first element type, as the
element loop of the `CreateArray` arm: each element must be of the first type,
a mismatch is the heterogeneous-array error (the source formats the offending
effect into the message with debug formatting, which the embedding does not
reproduce). -/
def check_array_types (syn : Syntax) (vars : SimpleVariableManager)
    (types : FinalizedTypes) : List FinalizedEffects → Except CheckError Unit
  | [] => .ok ()
  | checking :: rest =>
    match get_return checking vars with
    | none => .error (.panicked "called unwrap on None")
    | some returning =>
      if !of_type syn.impls returning types then
        .error (.parseErr (placeholder_error "Array element is not the array type!"))
      else check_array_types syn vars types rest

/-- The `found_end` update of the statement loop: a top-level `CompareJump` or
`Jump` effect marks the body as ended. -/
def found_end_update (effect : Effects) (found_end : Bool) : Bool :=
  match effect with
  | .CompareJump _ _ _ => true
  | .Jump _ => true
  | _ => found_end

mutual
/-- Checks a code body, as `verify_code`: the statements are verified in order
(by `verify_code_go`, which embeds the statement loop).  Fuel-indexed; the
source recursion has no fuel. -/
def verify_code : Nat → Syntax → Option FinalizedTypes → CodeBody →
    SimpleVariableManager → Bool → Bool →
    Except CheckError (FinalizedCodeBody × SimpleVariableManager)
  | 0, _, _, _, _, _, _ => .error .outOfFuel
  | n + 1, syn, return_type, code, vars, references, top =>
    verify_code_go n syn return_type code.label code.expressions [] false vars references top

/-- The statement loop of `verify_code` with its accumulated finalized body and
the `found_end` flag.  A `CompareJump` or `Jump` effect sets the flag; each
statement effect is verified and pushed; a `Return` statement ends the body as
returning, first reconciling the produced type with the expected return type
(downcast through the impl waiter when the types differ, are non-generic and
of-type; the expected-found error otherwise); a body that runs out of
statements without the flag panics unless it is the top body. -/
def verify_code_go : Nat → Syntax → Option FinalizedTypes → String →
    List Expression → List FinalizedExpression → Bool → SimpleVariableManager →
    Bool → Bool → Except CheckError (FinalizedCodeBody × SimpleVariableManager)
  | _, _, _, label, [], body, found_end, vars, _, top =>
    if !found_end && !top then
      .error (.panicked ("Code body with label " ++ label ++ " does not return or jump!"))
    else .ok (FinalizedCodeBody.new body label false, vars)
  | 0, _, _, _, _ :: _, _, _, _, _, _ => .error .outOfFuel
  | n + 1, syn, return_type, label, line :: rest, body, found_end, vars, references, top =>
    let found_end := found_end_update line.effect found_end
    match verify_effect n syn return_type line.effect vars references with
    | .error e => .error e
    | .ok (fe, vars2) =>
      let body2 := body ++ [FinalizedExpression.new line.expression_type fe]
      match line.expression_type with
      | .Return =>
        match return_type with
        | none => .ok (FinalizedCodeBody.new body2 label true, vars2)
        | some return_type2 =>
          match get_return fe vars2 with
          | none => .error (.panicked "called unwrap on None")
          | some last_type =>
            if !ftBeq last_type return_type2 && (name_safe last_type).isSome then
              if of_type syn.impls last_type return_type2 then
                match ImplWaiter_run syn last_type return_type2
                    (placeholder_error "You should not see this! Report this!") with
                | .error e => .error e
                | .ok _ =>
                  .ok (FinalizedCodeBody.new
                    (body ++ [FinalizedExpression.new .Return (.Downcast fe return_type2)])
                    label true, vars2)
              else
                .error (.parseErr (placeholder_error
                  ("Expected " ++ display return_type2 ++ ", found " ++ display last_type)))
            else .ok (FinalizedCodeBody.new body2 label true, vars2)
      | _ => verify_code_go n syn return_type label rest body2 found_end vars2 references top

/-- Verifies a list of effects in order, threading the variable environment, as
the argument loops of the call arms. -/
def verify_effects_list : Nat → Syntax → Option FinalizedTypes → List Effects →
    SimpleVariableManager → Bool →
    Except CheckError (List FinalizedEffects × SimpleVariableManager)
  | _, _, _, [], vars, _ => .ok ([], vars)
  | 0, _, _, _ :: _, _, _ => .error .outOfFuel
  | n + 1, syn, return_type, e :: rest, vars, references =>
    match verify_effect n syn return_type e vars references with
    | .error err => .error err
    | .ok (fe, vars2) =>
      match verify_effects_list n syn return_type rest vars2 references with
      | .error err => .error err
      | .ok (fes, vars3) => .ok (fe :: fes, vars3)

/-- Verifies the named field initializers of a `CreateStruct`, locating each
field positionally by linear scan, as the field loop of the `CreateStruct` arm;
an unmatched name is the unknown-field error. -/
def verify_field_effects : Nat → Syntax → Option FinalizedTypes →
    List FinalizedMemberField → List (String × Effects) → SimpleVariableManager →
    Bool → Except CheckError (List (Nat × FinalizedEffects) × SimpleVariableManager)
  | _, _, _, _, [], vars, _ => .ok ([], vars)
  | 0, _, _, _, _ :: _, _, _ => .error .outOfFuel
  | n + 1, syn, return_type, fields, (field_name, effect) :: rest, vars, references =>
    let i := fields.findIdx (fun field => field.field.name == field_name)
    if i == fields.length then
      .error (.parseErr (placeholder_error ("Unknown field " ++ field_name ++ "!")))
    else
      match verify_effect n syn return_type effect vars references with
      | .error e => .error e
      | .ok (fe, vars2) =>
        match verify_field_effects n syn return_type fields rest vars2 references with
        | .error e => .error e
        | .ok (out, vars3) => .ok ((i, fe) :: out, vars3)

/-- Checks one effect, as `verify_effect`, dispatching on the tag. -/
def verify_effect : Nat → Syntax → Option FinalizedTypes → Effects →
    SimpleVariableManager → Bool →
    Except CheckError (FinalizedEffects × SimpleVariableManager)
  | 0, _, _, _, _, _ => .error .outOfFuel
  | n + 1, syn, return_type, .Paren inner, vars, references =>
    verify_effect n syn return_type inner vars references
  | n + 1, syn, return_type, .CodeBody body, vars, references =>
    match verify_code n syn return_type body vars references false with
    | .error e => .error e
    | .ok (fb, _) => .ok (.CodeBody fb, vars)
  | n + 1, syn, return_type, .Set first second, vars, references =>
    match verify_effect n syn return_type first vars references with
    | .error e => .error e
    | .ok (f1, vars2) =>
      match verify_effect n syn return_type second vars2 references with
      | .error e => .error e
      | .ok (f2, vars3) => .ok (.Set f1 f2, vars3)
  | n + 1, syn, return_type, .Operation operation values, vars, references =>
    let error := placeholder_error ("Failed to find operation " ++ operation)
    match operation_rewrite syn operation values error with
    | .error e => .error e
    | .ok (outer_operation, values2) =>
      match (match outer_operation with
             | some found => some found
             | none => get_operator syn [operation]) with
      | none => .error (.parseErr error)
      | some operation2 =>
        match operation_attribute operation2 with
        | none => .error (.panicked "called unwrap on None")
        | some op_attr =>
          match operation_variadic_adjust op_attr values2 with
          | .error e => .error e
          | .ok values3 =>
            let split : Effects × List Effects :=
              match values3 with
              | [] => (Effects.NOP, [])
              | c :: rest => (c, rest)
            verify_effect n syn return_type
              (.ImplementationCall split.1 operation2.name "" split.2 none) vars references
  | n + 1, syn, return_type, .ImplementationCall calling traits method effects returning,
      vars, references =>
    match verify_effects_list n syn return_type effects vars references with
    | .error e => .error e
    | .ok (finalized_effects0, vars1) =>
      match ((match calling with
             | .NOP => .ok (FinalizedTypes.Struct VOID, finalized_effects0, vars1)
             | c =>
               match verify_effect n syn return_type c vars1 references with
               | .error e => .error e
               | .ok (found, vars2) =>
                 match get_return found vars2 with
                 | none => .error (.panicked "called unwrap on None")
                 | some frt0 =>
                   .ok (fix_generics syn frt0, found :: finalized_effects0, vars2)) :
               Except CheckError
                 (FinalizedTypes × List FinalizedEffects × SimpleVariableManager)) with
      | .error e => .error e
      | .ok (finding_return_type, finalized_effects, vars3) =>
        match get_struct syn traits with
        | none => .error (.panicked ("Screwed up trait! " ++ traits))
        | some inner =>
          let data := FinalizedTypes.Struct inner
          match ((if (of_type_sync finding_return_type data none).1 then
                   match impl_virtual_scan syn vars3 finding_return_type finalized_effects
                       method inner.data.functions 0 with
                   | .error e => .error e
                   | .ok (some out) => .ok (some out)
                   | .ok none =>
                     if method != "" then
                       .error (.parseErr (placeholder_error
                         ("Unknown method " ++ method ++ " in " ++ display data)))
                     else .ok none
                 else .ok none) : Except CheckError (Option FinalizedEffects)) with
          | .error e => .error e
          | .ok (some out) => .ok (out, vars3)
          | .ok none =>
            match try_get_impl_final syn vars3 finding_return_type data inner.data.name
                method returning finalized_effects with
            | .error e => .error e
            | .ok (some output) => .ok (output, vars3)
            | .ok none =>
              .error (.panicked
                ("Failed for " ++ display finding_return_type ++ " and " ++ display data))
  | n + 1, syn, return_type, .MethodCall calling method effects returning, vars, references =>
    match verify_effects_list n syn return_type effects vars references with
    | .error e => .error e
    | .ok (finalized_effects0, vars1) =>
      match calling with
      | some found0 =>
        match verify_effect n syn return_type found0 vars1 references with
        | .error e => .error e
        | .ok (calling2, vars2) =>
          match get_return calling2 vars2 with
          | none => .error (.panicked "called unwrap on None")
          | some return_type2 =>
            match (if (name_safe return_type2).isNone then find_method return_type2 method
                   else none) with
            | some found1 =>
              let finalized_effects := calling2 :: finalized_effects0
              let output := found1.map (fun p => (p.1, async_data_getter syn p.2))
              if output.length > 1 then
                .error (.parseErr (placeholder_error
                  ("Duplicate method " ++ method ++ " for generic!")))
              else
                match output.getLast? with
                | none => .error (.parseErr (placeholder_error
                    ("No method " ++ method ++ " for generic!")))
                | some (found_trait, found2) =>
                  .ok (.GenericMethodCall found2 found_trait finalized_effects, vars2)
            | none =>
              match inner_struct return_type2 with
              | none => .error (.panicked "inner_struct called on a type without a struct")
              | some rt_struct =>
                if is_modifier rt_struct.data.modifiers Modifier_Trait then
                  let finalized_effects := calling2 :: finalized_effects0
                  match get_function syn (rt_struct.data.name ++ "::" ++ method) with
                  | none => .error (.parseErr (placeholder_error
                      ("Failed to find method " ++ rt_struct.data.name ++ "::" ++ method)))
                  | some fd =>
                    let method2 := async_data_getter syn fd
                    match check_args method2 finalized_effects syn vars2 with
                    | .error e => .error e
                    | .ok (false, _) =>
                      .error (.parseErr (placeholder_error
                        ("Incorrect args to method " ++ method2.data.name)))
                    | .ok (true, fe2) =>
                      match rt_struct.data.functions.findIdx? (fun f => f == method2.data) with
                      | none => .error (.panicked "called unwrap on None")
                      | some index => .ok (.VirtualCall index method2 fe2, vars2)
                else
                  let finalized_effects := calling2 :: finalized_effects0
                  match get_function syn method with
                  | some value =>
                    match parse_returning syn returning with
                    | .error e => .error e
                    | .ok returning2 =>
                      match check_method syn (async_data_getter syn value) finalized_effects
                          vars2 returning2 with
                      | .error e => .error e
                      | .ok out => .ok (out, vars2)
                  | none =>
                    match parse_returning syn returning with
                    | .error e => .error e
                    | .ok returning2 =>
                      match trait_impl_waiter syn vars2 finalized_effects returning2 method
                          return_type2 with
                      | .error e => .error e
                      | .ok out => .ok (out, vars2)
      | none =>
        match get_function syn method with
        | none => .error (.parseErr (placeholder_error ("Unknown method " ++ method)))
        | some fd =>
          match parse_returning syn returning with
          | .error e => .error e
          | .ok returning2 =>
            match check_method syn (async_data_getter syn fd) finalized_effects0 vars1
                returning2 with
            | .error e => .error e
            | .ok out => .ok (out, vars1)
  | n + 1, syn, return_type, .CompareJump effect first second, vars, references =>
    match verify_effect n syn return_type effect vars references with
    | .error e => .error e
    | .ok (fe, vars2) => .ok (.CompareJump fe first second, vars2)
  | n + 1, syn, return_type, .CreateStruct target effects, vars, references =>
    match get_struct syn target with
    | none => .error (.parseErr (placeholder_error "Test"))
    | some ts =>
      let target2 := FinalizedTypes.Struct ts
      match verify_field_effects n syn return_type ts.fields effects vars references with
      | .error e => .error e
      | .ok (final_effects, vars2) =>
        .ok (.CreateStruct (some (.HeapAllocate target2)) target2 final_effects, vars2)
  | n + 1, syn, return_type, .Load effect target, vars, references =>
    match verify_effect n syn return_type effect vars references with
    | .error e => .error e
    | .ok (output, vars2) =>
      match get_return output vars2 with
      | none => .error (.panicked "called unwrap on None")
      | some types =>
        match inner_struct types with
        | none => .error (.panicked "inner_struct called on a type without a struct")
        | some ts => .ok (.Load output target ts, vars2)
  | n + 1, syn, return_type, .CreateVariable name effect, vars, references =>
    match verify_effect n syn return_type effect vars references with
    | .error e => .error e
    | .ok (fe, vars2) =>
      match get_return fe vars2 with
      | none => .error (.parseErr (placeholder_error "No return type!"))
      | some found =>
        .ok (.CreateVariable name fe found, vars2.insert name found)
  | _ + 1, _, _, .NOP, _, _ => .error (.panicked "Tried to compile a NOP!")
  | _ + 1, _, _, .Jump jumping, vars, _ => .ok (.Jump jumping, vars)
  | _ + 1, _, _, .LoadVariable name, vars, _ => .ok (.LoadVariable name, vars)
  | _ + 1, _, _, .Float float, vars, _ => .ok (store (.Float float), vars)
  | _ + 1, _, _, .Int int, vars, _ => .ok (store (.UInt (int_as_u64 int)), vars)
  | _ + 1, _, _, .UInt uint, vars, _ => .ok (store (.UInt uint), vars)
  | _ + 1, _, _, .Bool value, vars, _ => .ok (store (.Bool value), vars)
  | _ + 1, _, _, .String value, vars, _ => .ok (store (.String value), vars)
  | _ + 1, _, _, .Char value, vars, _ => .ok (store (.Char value), vars)
  | n + 1, syn, return_type, .CreateArray effects, vars, references =>
    match verify_effects_list n syn return_type effects vars references with
    | .error e => .error e
    | .ok (output, vars2) =>
      match output.head? with
      | none => .ok (store (.CreateArray none output), vars2)
      | some first =>
        match get_return first vars2 with
        | none => .error (.panicked "called unwrap on None")
        | some types =>
          match check_array_types syn vars2 types output with
          | .error e => .error e
          | .ok _ => .ok (store (.CreateArray (some types) output), vars2)
end


/-! ## Temporal model of implementation-call resolution

The resolution loop of `check_impl_call.rs` (lines 73 to 85) runs while the
implementation graph is still growing, so this part of the embedding keeps the
evolving graph explicit: a schedule assigns to every instant the graph state
the next lock acquisition observes. -/

/-- A source span, as `data::tokens::Span`; the checker only threads it into
errors, so only its identity matters. -/
structure Span where
  start_pos : Nat
  end_pos : Nat
deriving DecidableEq

/-- An error carrying the span the caller provided, as `Span::make_error`. -/
structure SpanError where
  span : Span
  message : String
deriving DecidableEq

/-- Outcomes of the temporal implementation-call model: a returned error
carrying a span, a Rust panic, or fuel exhaustion of the embedding. -/
inductive ImplCallError where
  | err (e : SpanError)
  | panicked (msg : String)
  | outOfFuel
deriving DecidableEq

/-- The implementation graph at one instant: the finished flag and the impls
registered so far.  Modelled from the spec (section 4.1). -/
structure ImplState where
  finished : Bool
  impls : List ImplEntry

/-- One poll result of the `ImplWaiter`.  Modelled from the spec (section
4.1): the waiter completes with the matching method instances, keeps waiting
while none are registered and the graph is unfinished, and fails with the
error it carries once the finished graph still proves nothing. -/
inductive WaitResult where
  | found (fs : List FunctionData)
  | pending
  | notFound (e : SpanError)
deriving DecidableEq

/-- Polls the `ImplWaiter` against the graph at one instant.  Modelled from
the spec (section 4.1). -/
def impl_waiter_poll (st : ImplState) (return_type data : FinalizedTypes)
    (error : SpanError) : WaitResult :=
  match inner_struct return_type, inner_struct data with
  | some b, some t =>
    let found := st.impls.filter
      (fun e => e.base == b.data.name && e.trait_name == t.data.name)
    if found.isEmpty then (if st.finished then .notFound error else .pending)
    else .found (found.flatMap (fun e => e.functions))
  | _, _ => if st.finished then .notFound error else .pending

/-- The outcome of one `try_get_impl` attempt of `check_impl_call.rs`: a
finalized call, no usable candidate, a still-pending waiter, or a failure. -/
inductive TryOutcome where
  | gotSome (f : FinalizedEffects)
  | gotNone
  | waiterPending
  | failed (e : ImplCallError)

/-- Parses the optional return-type hint with the span-carrying bounds error of
`check_impl_call.rs`. -/
def parse_returning_span (syn : Syntax) (returning : Option String) (span : Span) :
    Except ImplCallError (Option FinalizedTypes) :=
  match returning with
  | none => .ok none
  | some name =>
    match get_struct syn name with
    | some s => .ok (some (.Struct s))
    | none => .error (.err ⟨span, "Incorrect bounds!"⟩)

/-- The candidate loop of `try_get_impl` in `check_impl_call.rs`: candidates
whose simple name matches (an empty requested name matches anything) are tried
through `check_method` and a failed candidate is skipped; `check_method` here
is the embedding of the checker version of that function, standing in for the
`check_method_call.rs` source that is not part of the sources under
verification. -/
def try_get_impl_at_scan (syn : Syntax) (vars : SimpleVariableManager)
    (effects : List FinalizedEffects) (returning : Option String) (method : String)
    (span : Span) : List FunctionData → TryOutcome
  | [] => .gotNone
  | temp :: rest =>
    if last_segment temp.name == method || method == "" then
      match parse_returning_span syn returning span with
      | .error e => .failed e
      | .ok returning2 =>
        match check_method syn (async_data_getter syn temp) effects vars returning2 with
        | .ok out => .gotSome out
        | .error _ => try_get_impl_at_scan syn vars effects returning method span rest
    else try_get_impl_at_scan syn vars effects returning method span rest

/-- One attempt to resolve the implementation call against the graph at one
instant, as `try_get_impl` of `check_impl_call.rs`; the waiter error carries
the span the caller provided. -/
def try_get_impl_at (syn : Syntax) (st : ImplState) (vars : SimpleVariableManager)
    (finding_return_type data : FinalizedTypes) (method : String)
    (returning : Option String) (effects : List FinalizedEffects) (span : Span) :
    TryOutcome :=
  match impl_waiter_poll st finding_return_type data
      ⟨span, "Nothing implements the given trait!"⟩ with
  | .notFound e => .failed (.err e)
  | .pending => .waiterPending
  | .found result => try_get_impl_at_scan syn vars effects returning method span result

/-- The resolution loop of `check_impl_call.rs` (lines 73 to 85): attempts run
in a loop while the finished flag is observed false (a pending waiter resumes
at the next instant), one further attempt runs after the flag is observed
true, and a final attempt that yields nothing panics.  The schedule gives the
graph state each iteration observes; the fuel bounds the embedding only. -/
def impl_call_loop (syn : Syntax) (states : Nat → ImplState)
    (vars : SimpleVariableManager) (finding_return_type data : FinalizedTypes)
    (method : String) (returning : Option String) (effects : List FinalizedEffects)
    (span : Span) : Nat → Nat → Except ImplCallError FinalizedEffects
  | 0, _ => .error .outOfFuel
  | fuel + 1, t =>
    let st := states t
    if st.finished then
      match try_get_impl_at syn st vars finding_return_type data method returning
          effects span with
      | .gotSome out => .ok out
      | .gotNone =>
        .error (.panicked
          ("Failed for " ++ display finding_return_type ++ " and " ++ display data))
      | .waiterPending => .error (.panicked "unreachable: a finished waiter never pends")
      | .failed e => .error e
    else
      match try_get_impl_at syn st vars finding_return_type data method returning
          effects span with
      | .gotSome out => .ok out
      | .gotNone =>
        impl_call_loop syn states vars finding_return_type data method returning effects
          span fuel (t + 1)
      | .waiterPending =>
        impl_call_loop syn states vars finding_return_type data method returning effects
          span fuel (t + 1)
      | .failed e => .error e

/-! ## Shared example data for witnesses and counterexamples -/

/-- A symbol table with nothing registered. -/
def emptyTable : Syntax := ⟨[], [], [], [], []⟩

/-- An empty variable environment. -/
def noVars : SimpleVariableManager := ⟨[]⟩

/-- The example struct `Dog`. -/
def dogStruct : FinalizedStruct := .mk ⟨"Dog", 0, [], []⟩ []

/-- The example trait `Animal` (the trait modifier bit set). -/
def animalStruct : FinalizedStruct := .mk ⟨"Animal", 16, [], []⟩ []

/-- A symbol table where `Dog` implements the trait `Animal` with a method
`Animal::feed`. -/
def dogTable : Syntax :=
  ⟨[], [dogStruct, animalStruct], [], [⟨"Dog", "Animal", [⟨"Animal::feed"⟩]⟩], []⟩

/-! ## C1: operator re-association -/

/-- Operator `a` of the C1 counterexample: priority 5, `parse_left = true`. -/
def c1OpA : StructData := ⟨"a", 32, [.Integer "priority" 5, .Bool "parse_left" true], []⟩

/-- Operator `b` of the C1 counterexample: priority 5. -/
def c1OpB : StructData := ⟨"b", 32, [.Integer "priority" 5], []⟩

/-- C1 counterexample.  The claim says re-association of `x a y b z` yields the
left-grouped tree `(x a y) b z` when the priorities are equal and `a` has
`parse_left = true`.  With both priorities 5 and `parse_left = true` on the
outer operator, `assign_with_priority` keeps the outer operator as the root
with the nested operation intact: the right-grouped tree `x a (y b z)`. -/
theorem c1_counterexample :
    assign_with_priority "a" c1OpA [.Int 1] "b" c1OpB [.Int 2, .Int 3] false =
      .ok (some c1OpA, [.Int 1, .Operation "b" [.Int 2, .Int 3]]) ∧
    op_priority_of c1OpA = op_priority_of c1OpB ∧
    op_parse_left_of c1OpA = true :=
  ⟨rfl, rfl, rfl⟩

/-- C1 (amended): for operators `a` (the outer operator, priority `pa`,
`parse_left = Pa`) and `b` (the nested operator, priority `pb`), re-association
of `x a y b z` yields the left-grouped tree `(x a y) b z` exactly when
`pb < pa`, or `pa = pb` and `Pa` is false; otherwise the right-grouped tree
`x a (y b z)`. -/
theorem c1_reassociation (found inner_data : StructData)
    (operation inner_operator : String) (x y z : Effects) :
    assign_with_priority operation found [x] inner_operator inner_data [y, z] false =
      .ok (if op_priority_of inner_data < op_priority_of found ∨
          (op_parse_left_of found = false ∧
            op_priority_of inner_data = op_priority_of found) then
        (some inner_data, [Effects.Operation operation [x, y], z])
      else (some found, [x, Effects.Operation inner_operator [y, z]])) := by
  unfold assign_with_priority
  by_cases h : op_priority_of inner_data < op_priority_of found ∨
      (op_parse_left_of found = false ∧ op_priority_of inner_data = op_priority_of found)
  · rw [if_pos h]
    have hb : (decide (op_priority_of inner_data < op_priority_of found) ||
        (!op_parse_left_of found && (op_priority_of inner_data == op_priority_of found))) =
          true := by
      rcases h with h | ⟨h1, h2⟩
      · simp [h]
      · simp [h1, h2]
    simp [hb]
  · rw [if_neg h]
    push_neg at h
    rcases h with ⟨h1, h2⟩
    have hlt : ¬ op_priority_of inner_data < op_priority_of found := not_lt.mpr h1
    have hb : (decide (op_priority_of inner_data < op_priority_of found) ||
        (!op_parse_left_of found && (op_priority_of inner_data == op_priority_of found))) =
          false := by
      by_cases hpl : op_parse_left_of found = false
      · simp [hlt, h2 hpl]
      · have hpt : op_parse_left_of found = true := by
          revert hpl; cases op_parse_left_of found <;> simp
        simp [hlt, hpt]
    simp [hb]

/-! ## C5: literal finalization -/

/-- C5: every literal effect is finalized as a heap store of the typed
literal, and a signed `Int` literal is canonicalized to the unsigned form by
the `i64 as u64` cast, losing the sign: the stored value is the literal taken
modulo two to the sixty-fourth. -/
theorem c5_literals (n : Nat) (syn : Syntax) (return_type : Option FinalizedTypes)
    (vars : SimpleVariableManager) (references : Bool) (int : Int)
    (float uint : Nat) (b : Bool) (s : String) (c : Char) :
    verify_effect (n + 1) syn return_type (.Int int) vars references =
      .ok (.HeapStore (.UInt (int_as_u64 int)), vars) ∧
    (int_as_u64 int : Int) = int % 2 ^ 64 ∧
    verify_effect (n + 1) syn return_type (.Float float) vars references =
      .ok (.HeapStore (.Float float), vars) ∧
    verify_effect (n + 1) syn return_type (.UInt uint) vars references =
      .ok (.HeapStore (.UInt uint), vars) ∧
    verify_effect (n + 1) syn return_type (.Bool b) vars references =
      .ok (.HeapStore (.Bool b), vars) ∧
    verify_effect (n + 1) syn return_type (.String s) vars references =
      .ok (.HeapStore (.String s), vars) ∧
    verify_effect (n + 1) syn return_type (.Char c) vars references =
      .ok (.HeapStore (.Char c), vars) := by
  refine ⟨rfl, ?_, rfl, rfl, rfl, rfl, rfl⟩
  unfold int_as_u64
  exact Int.toNat_of_nonneg (Int.emod_nonneg _ (by norm_num))

/-! ## C7: nested code bodies do not leak bindings -/

/-- C7: verifying a nested code body leaves the ambient variable environment
unchanged (the nested body runs on a clone), while `CreateVariable` binds the
new variable in the ambient environment on top of whatever its initializer
did. -/
theorem c7_codebody_frame (n : Nat) (syn : Syntax)
    (return_type : Option FinalizedTypes) (body : CodeBody) (name : String)
    (eff : Effects) (vars : SimpleVariableManager) (references : Bool) :
    (∀ fb vars2,
      verify_effect (n + 1) syn return_type (.CodeBody body) vars references =
        .ok (fb, vars2) → vars2 = vars) ∧
    (∀ fe vars2,
      verify_effect (n + 1) syn return_type (.CreateVariable name eff) vars references =
        .ok (fe, vars2) →
      ∃ inner vmid types,
        verify_effect n syn return_type eff vars references = .ok (inner, vmid) ∧
        get_return inner vmid = some types ∧
        fe = .CreateVariable name inner types ∧
        vars2 = vmid.insert name types) := by
  constructor
  · intro fb vars2 h
    rw [show verify_effect (n + 1) syn return_type (.CodeBody body) vars references =
        (match verify_code n syn return_type body vars references false with
         | .error e => .error e
         | .ok (fb, _) => .ok (.CodeBody fb, vars)) from rfl] at h
    cases hc : verify_code n syn return_type body vars references false with
    | error e => rw [hc] at h; exact absurd h (by simp)
    | ok p =>
      rw [hc] at h
      cases p with
      | mk fb2 v2 =>
        simp only [Except.ok.injEq, Prod.mk.injEq] at h
        exact h.2.symm
  · intro fe vars2 h
    rw [show verify_effect (n + 1) syn return_type (.CreateVariable name eff) vars references =
        (match verify_effect n syn return_type eff vars references with
         | .error e => .error e
         | .ok (fe, vars2) =>
           match get_return fe vars2 with
           | none => .error (.parseErr (placeholder_error "No return type!"))
           | some found =>
             .ok (.CreateVariable name fe found, vars2.insert name found)) from rfl] at h
    cases he : verify_effect n syn return_type eff vars references with
    | error e => rw [he] at h; exact absurd h (by simp)
    | ok p =>
      rw [he] at h
      cases p with
      | mk inner vmid =>
        cases hr : get_return inner vmid with
        | none => simp only [hr] at h; exact absurd h (by simp)
        | some types =>
          simp only [hr, Except.ok.injEq, Prod.mk.injEq] at h
          exact ⟨inner, vmid, types, rfl, hr, h.1.symm, h.2.symm⟩

/-- Body of the C7 witness: a nested body binding `y` and jumping. -/
def c7_body : CodeBody :=
  .mk "inner" [.mk .Line (.CreateVariable "y" (.UInt 2)), .mk .Line (.Jump "x")]

/-- Expected finalization of the C7 witness body. -/
def c7_fb : FinalizedCodeBody :=
  .mk [.mk .Line (.CreateVariable "y" (.HeapStore (.UInt 2)) (.Struct (primStruct "u64"))),
    .mk .Line (.Jump "x")] "inner" false

/-- C7 witness: a concrete nested body that binds a variable verifies with the
ambient environment unchanged, and a concrete `CreateVariable` yields the
inserted binding. -/
theorem c7_witness :
    (verify_effect 5 emptyTable none (.CodeBody c7_body) noVars false =
      .ok (.CodeBody c7_fb, noVars)) ∧
    (∃ inner vmid types,
      verify_effect 3 emptyTable none (.UInt 2) noVars false = .ok (inner, vmid) ∧
      get_return inner vmid = some types ∧
      FinalizedEffects.CreateVariable "y" (.HeapStore (.UInt 2)) (.Struct (primStruct "u64")) =
        .CreateVariable "y" inner types ∧
      SimpleVariableManager.mk [("y", .Struct (primStruct "u64"))] = vmid.insert "y" types) :=
  ⟨by rfl,
    (c7_codebody_frame 3 emptyTable none c7_body "y" (.UInt 2) noVars false).2
      (.CreateVariable "y" (.HeapStore (.UInt 2)) (.Struct (primStruct "u64")))
      ⟨[("y", .Struct (primStruct "u64"))]⟩ (by rfl)⟩

/-! ## C2: downcast insertion in argument typechecking -/

/-- Whether the checker inserts a downcast for an argument against a
parameter: the argument type (generic-fixed) passes the of-type test only
through an implementation, so the impl-free synchronous query fails. -/
def downcast_needed (syn : Syntax) (vars : SimpleVariableManager)
    (arg : FinalizedEffects) (param : FinalizedMemberField) : Bool :=
  match get_return arg vars with
  | some returning =>
    !(of_type_sync (fix_generics syn returning) param.field.field_type none).1
  | none => false

/-- On success the argument loop rewrites exactly the downcast-needing
arguments and leaves any surplus untouched. -/
theorem check_args_go_ok (syn : Syntax) (vars : SimpleVariableManager) :
    ∀ (ps : List FinalizedMemberField) (args out : List FinalizedEffects),
    check_args_go syn vars ps args = .ok (true, out) →
    out = (ps.zip args).map (fun pa =>
        if downcast_needed syn vars pa.2 pa.1 then
          FinalizedEffects.Downcast pa.2 pa.1.field.field_type
        else pa.2) ++ args.drop ps.length := by
  intro ps
  induction ps with
  | nil =>
    intro args out h
    simp only [check_args_go, Except.ok.injEq, Prod.mk.injEq, true_and] at h
    simp [h.symm]
  | cons p ps ih =>
    intro args out h
    cases args with
    | nil => simp only [check_args_go] at h; simp at h
    | cons a rest =>
      simp only [check_args_go] at h
      split at h
      · simp at h
      · rename_i returning hr
        split at h
        · simp at h
        · rename_i hot
          split at h
          · rename_i hsync
            split at h
            · rename_i hr2
              exact Option.noConfusion hr2
            · rename_i return_type hr2
              split at h
              · exact Except.noConfusion h
              · rename_i funcs hw
                split at h
                · exact Except.noConfusion h
                · rename_i okb rest2 hrec
                  simp only [Except.ok.injEq, Prod.mk.injEq] at h
                  obtain ⟨hok, hout⟩ := h
                  rw [hok] at hrec
                  rw [← hout, ih rest rest2 hrec]
                  have hx : (of_type_sync (fix_generics syn returning)
                      p.field.field_type none).1 = false := by
                    revert hsync
                    cases (of_type_sync (fix_generics syn returning)
                      p.field.field_type none).1 <;> simp
                  simp [downcast_needed, hr, hx]
          · rename_i hsync
            split at h
            · exact Except.noConfusion h
            · rename_i okb rest2 hrec
              simp only [Except.ok.injEq, Prod.mk.injEq] at h
              obtain ⟨hok, hout⟩ := h
              rw [hok] at hrec
              rw [← hout, ih rest rest2 hrec]
              have hx : (of_type_sync (fix_generics syn returning)
                  p.field.field_type none).1 = true := by
                revert hsync
                cases (of_type_sync (fix_generics syn returning)
                  p.field.field_type none).1 <;> simp
              simp [downcast_needed, hr, hx]

/-- C2 (amended): when argument typechecking succeeds, each emitted argument
is wrapped as `Downcast(arg, paramType)` exactly when the argument type passes
`of_type` against the parameter only through an implementation, that is, when
the impl-free synchronous query `of_type_sync(argType, paramType, None)`
fails; in particular no downcast is inserted when the types are equal, and
none is inserted when the synchronous query succeeds structurally (for example
through reference unwrapping or a generic bound) even though the types are not
equal. -/
theorem c2_downcast_insertion (function : CodelessFinalizedFunction)
    (args : List FinalizedEffects) (syn : Syntax) (vars : SimpleVariableManager)
    (out : List FinalizedEffects)
    (h : check_args function args syn vars = .ok (true, out)) :
    function.arguments.length = args.length ∧
    out = (function.arguments.zip args).map (fun pa =>
      if downcast_needed syn vars pa.2 pa.1 then
        FinalizedEffects.Downcast pa.2 pa.1.field.field_type
      else pa.2) := by
  unfold check_args at h
  by_cases hL : function.arguments.length = args.length
  · have hbne : (function.arguments.length != args.length) = false := by simp [hL]
    rw [hbne] at h
    simp only [Bool.false_eq_true, if_false] at h
    refine ⟨hL, ?_⟩
    rw [check_args_go_ok syn vars function.arguments args out h, hL, List.drop_length,
      List.append_nil]
  · have hbne : (function.arguments.length != args.length) = true := by simp [hL]
    rw [hbne] at h
    simp at h

/-- Parameter of type `S` for the C2 counterexample. -/
def c2_paramS : FinalizedMemberField := .mk 0 (.mk "arg" (.Struct (primStruct "S")))

/-- One-parameter function taking an `S` for the C2 counterexample. -/
def c2_funcF : CodelessFinalizedFunction := ⟨⟨"f"⟩, [], [c2_paramS], none⟩

/-- Variables binding `x` to a reference to `S`. -/
def c2_refVars : SimpleVariableManager := ⟨[("x", .Reference (.Struct (primStruct "S")))]⟩

/-- C2 counterexample.  The argument has type `&S`, the parameter type `S`:
`of_type_sync` returns true (reference unwrapping, no impl used), the types
are not equal, yet the emitted argument list contains no downcast: the call
passes the argument through unchanged, because the checker decides the
downcast by the failure of the impl-free synchronous query, not by its
success. -/
theorem c2_counterexample :
    check_args c2_funcF [.LoadVariable "x"] emptyTable c2_refVars =
      .ok (true, [.LoadVariable "x"]) ∧
    get_return (.LoadVariable "x") c2_refVars =
      some (.Reference (.Struct (primStruct "S"))) ∧
    (of_type_sync (.Reference (.Struct (primStruct "S"))) (.Struct (primStruct "S"))
      (some emptyTable.impls)).1 = true ∧
    ftBeq (.Reference (.Struct (primStruct "S"))) (.Struct (primStruct "S")) = false :=
  ⟨rfl, rfl, rfl, rfl⟩

/-- Parameter of the trait type `Animal` for the C2 witness. -/
def c2_paramAnimal : FinalizedMemberField := .mk 0 (.mk "arg" (.Struct animalStruct))

/-- One-parameter function taking an `Animal` for the C2 witness. -/
def c2_funcG : CodelessFinalizedFunction := ⟨⟨"g"⟩, [], [c2_paramAnimal], none⟩

/-- Variables binding `d` to a `Dog`. -/
def dogVars : SimpleVariableManager := ⟨[("d", .Struct dogStruct)]⟩

/-- C2 witness: a `Dog` argument against an `Animal` parameter with the impl
registered typechecks, and the emitted argument is exactly the downcast the
amended claim describes. -/
theorem c2_witness :
    c2_funcG.arguments.length = ([FinalizedEffects.LoadVariable "d"] : List FinalizedEffects).length ∧
    [FinalizedEffects.Downcast (.LoadVariable "d") (.Struct animalStruct)] =
      (c2_funcG.arguments.zip [FinalizedEffects.LoadVariable "d"]).map (fun pa =>
        if downcast_needed dogTable dogVars pa.2 pa.1 then
          FinalizedEffects.Downcast pa.2 pa.1.field.field_type
        else pa.2) :=
  c2_downcast_insertion c2_funcG [.LoadVariable "d"] dogTable dogVars
    [.Downcast (.LoadVariable "d") (.Struct animalStruct)] (by rfl)

/-! ## C6: array homogeneity -/

/-- When every element type is of the first element type the element check
succeeds. -/
theorem check_array_types_all_ok (syn : Syntax) (vars : SimpleVariableManager)
    (types : FinalizedTypes) :
    ∀ lst : List FinalizedEffects,
    (∀ e ∈ lst, ∃ te, get_return e vars = some te ∧ of_type syn.impls te types = true) →
    check_array_types syn vars types lst = .ok () := by
  intro lst
  induction lst with
  | nil => intro _; rfl
  | cons a rest ih =>
    intro h
    obtain ⟨te, hte, hot⟩ := h a (List.mem_cons_self a rest)
    simp only [check_array_types, hte, hot, Bool.not_true, Bool.false_eq_true, if_false]
    exact ih (fun e he => h e (List.mem_cons_of_mem a he))

/-- When every element has a type and some element type fails the of-type test
against the first element type, the element check produces the
heterogeneous-array error. -/
theorem check_array_types_fails (syn : Syntax) (vars : SimpleVariableManager)
    (types : FinalizedTypes) :
    ∀ lst : List FinalizedEffects,
    (∀ e ∈ lst, (get_return e vars).isSome) →
    (∃ e ∈ lst, ∃ te, get_return e vars = some te ∧ of_type syn.impls te types = false) →
    check_array_types syn vars types lst =
      .error (.parseErr (placeholder_error "Array element is not the array type!")) := by
  intro lst
  induction lst with
  | nil => rintro _ ⟨e, he, _⟩; exact absurd he (List.not_mem_nil e)
  | cons a rest ih =>
    rintro hsome ⟨e, he, te, hte, hot⟩
    obtain ⟨ta, hta⟩ := Option.isSome_iff_exists.mp (hsome a (List.mem_cons_self a rest))
    cases hcase : of_type syn.impls ta types with
    | false => simp [check_array_types, hta, hcase]
    | true =>
      simp only [check_array_types, hta, hcase, Bool.not_true, Bool.false_eq_true, if_false]
      refine ih (fun e2 he2 => hsome e2 (List.mem_cons_of_mem a he2)) ⟨e, ?_, te, hte, hot⟩
      rcases List.mem_cons.mp he with rfl | hmem
      · rw [hta] at hte
        cases hte
        rw [hcase] at hot
        cases hot
      · exact hmem

/-- Successful element verification preserves the element count. -/
theorem verify_effects_list_length :
    ∀ (n : Nat) (syn : Syntax) (return_type : Option FinalizedTypes)
      (xs : List Effects) (vars : SimpleVariableManager) (references : Bool)
      (out : List FinalizedEffects) (vars2 : SimpleVariableManager),
    verify_effects_list n syn return_type xs vars references = .ok (out, vars2) →
    out.length = xs.length := by
  intro n syn return_type xs
  induction xs generalizing n with
  | nil =>
    intro vars references out vars2 h
    cases n with
    | zero =>
      simp only [verify_effects_list, Except.ok.injEq, Prod.mk.injEq] at h
      simp [h.1.symm]
    | succ n =>
      simp only [verify_effects_list, Except.ok.injEq, Prod.mk.injEq] at h
      simp [h.1.symm]
  | cons e rest ih =>
    intro vars references out vars2 h
    cases n with
    | zero => simp only [verify_effects_list] at h; exact Except.noConfusion h
    | succ n =>
      simp only [verify_effects_list] at h
      split at h
      · exact Except.noConfusion h
      · rename_i fe vars3 hv
        split at h
        · exact Except.noConfusion h
        · rename_i fes vars4 hrest
          simp only [Except.ok.injEq, Prod.mk.injEq] at h
          rw [← h.1]
          simp [ih n vars3 references fes vars4 hrest]

/-- C6 (amended): for a `CreateArray` whose elements verify, the element type
is the first element type; the array finalizes to
`HeapStore(CreateArray(elementType, elements))` with the elements in their
original order and count exactly when every element (the first one included)
passes `of_type` against the first element type, and the heterogeneous-array
error is produced when any element (again the first one included) fails it. -/
theorem c6_array_homogeneity (n : Nat) (syn : Syntax)
    (return_type : Option FinalizedTypes) (xs : List Effects)
    (vars : SimpleVariableManager) (references : Bool)
    (out : List FinalizedEffects) (vars2 : SimpleVariableManager)
    (first : FinalizedEffects) (types : FinalizedTypes)
    (hlist : verify_effects_list n syn return_type xs vars references = .ok (out, vars2))
    (hhead : out.head? = some first)
    (htype : get_return first vars2 = some types) :
    out.length = xs.length ∧
    ((∀ e ∈ out, ∃ te, get_return e vars2 = some te ∧ of_type syn.impls te types = true) →
      verify_effect (n + 1) syn return_type (.CreateArray xs) vars references =
        .ok (.HeapStore (.CreateArray (some types) out), vars2)) ∧
    ((∀ e ∈ out, (get_return e vars2).isSome) →
     (∃ e ∈ out, ∃ te, get_return e vars2 = some te ∧ of_type syn.impls te types = false) →
      verify_effect (n + 1) syn return_type (.CreateArray xs) vars references =
        .error (.parseErr (placeholder_error "Array element is not the array type!"))) := by
  have harm : verify_effect (n + 1) syn return_type (.CreateArray xs) vars references =
      (match verify_effects_list n syn return_type xs vars references with
       | .error e => .error e
       | .ok (output, vars2) =>
         match output.head? with
         | none => .ok (store (.CreateArray none output), vars2)
         | some first =>
           match get_return first vars2 with
           | none => .error (.panicked "called unwrap on None")
           | some types =>
             match check_array_types syn vars2 types output with
             | .error e => .error e
             | .ok _ => .ok (store (.CreateArray (some types) output), vars2)) := rfl
  refine ⟨verify_effects_list_length n syn return_type xs vars references out vars2 hlist,
    ?_, ?_⟩
  · intro hall
    rw [harm, hlist]
    simp only [hhead, htype, check_array_types_all_ok syn vars2 types out hall]
    rfl
  · intro hsome hex
    rw [harm, hlist]
    simp only [hhead, htype, check_array_types_fails syn vars2 types out hsome hex]

/-- Variables binding `x` to an unbounded generic for the C6 counterexample. -/
def c6_vars : SimpleVariableManager := ⟨[("x", .Generic "T" [])]⟩

/-- C6 counterexample.  The claim restricts the of-type requirement to every
element other than the first.  In this singleton array there is no other
element, so the claim promises success; but the checker tests every element
against the first type, the first one included, and the generic-typed element
fails the test against its own type (a generic is of a type only through its
bounds), so the run produces the heterogeneous-array error. -/
theorem c6_counterexample :
    verify_effect 3 emptyTable none (.CreateArray [.LoadVariable "x"]) c6_vars false =
      .error (.parseErr (placeholder_error "Array element is not the array type!")) ∧
    ([Effects.LoadVariable "x"] : List Effects).length = 1 ∧
    of_type emptyTable.impls (.Generic "T" []) (.Generic "T" []) = false :=
  ⟨rfl, rfl, rfl⟩

/-- Expected element finalization of the C6 witness. -/
def c6_out : List FinalizedEffects := [.HeapStore (.UInt 1), .HeapStore (.UInt 2)]

/-- C6 witness: a homogeneous two-element `u64` array finalizes to the heap
stored array of the first element type with both elements in order. -/
theorem c6_witness :
    verify_effects_list 3 emptyTable none [.UInt 1, .UInt 2] noVars false =
      .ok (c6_out, noVars) ∧
    verify_effect 4 emptyTable none (.CreateArray [.UInt 1, .UInt 2]) noVars false =
      .ok (.HeapStore (.CreateArray (some (.Struct (primStruct "u64"))) c6_out), noVars) :=
  ⟨rfl,
    (c6_array_homogeneity 3 emptyTable none [.UInt 1, .UInt 2] noVars false c6_out noVars
      (.HeapStore (.UInt 1)) (.Struct (primStruct "u64")) (by rfl) (by rfl) (by rfl)).2.1
      (by
        intro e he
        simp only [c6_out, List.mem_cons, List.not_mem_nil, or_false] at he
        rcases he with rfl | rfl
        · exact ⟨.Struct (primStruct "u64"), rfl, rfl⟩
        · exact ⟨.Struct (primStruct "u64"), rfl, rfl⟩)⟩

/-! ## C3: return-type reconciliation at a Return statement -/

/-- C3 (amended): when a `Return` statement whose verified effect has type `T`
different from the expected return type `R` is processed, and `T` is not
generic (`name_safe` reports a name): if `of_type(T, R)` holds and the
implementation graph resolves the impl waiter, the returned effect is wrapped
in `Downcast(_, R)`; if `of_type(T, R)` does not hold, checking fails with the
error `Expected R, found T`.  When `T` is generic the effect is returned
unchanged, with neither downcast nor error. -/
theorem c3_return_reconciliation (n : Nat) (syn : Syntax)
    (return_type2 : FinalizedTypes) (label : String) (eff : Effects)
    (rest : List Expression) (body : List FinalizedExpression) (found_end : Bool)
    (vars : SimpleVariableManager) (references top : Bool) (fe : FinalizedEffects)
    (vars2 : SimpleVariableManager) (last_type : FinalizedTypes)
    (hv : verify_effect n syn (some return_type2) eff vars references = .ok (fe, vars2))
    (hr : get_return fe vars2 = some last_type)
    (hne : ftBeq last_type return_type2 = false) :
    ((name_safe last_type).isSome = true →
      of_type syn.impls last_type return_type2 = true →
      ∀ fns, ImplWaiter_run syn last_type return_type2
          (placeholder_error "You should not see this! Report this!") = .ok fns →
      verify_code_go (n + 1) syn (some return_type2) label
          (Expression.mk .Return eff :: rest) body found_end vars references top =
        .ok (FinalizedCodeBody.new
          (body ++ [FinalizedExpression.new .Return (.Downcast fe return_type2)])
          label true, vars2)) ∧
    ((name_safe last_type).isSome = true →
      of_type syn.impls last_type return_type2 = false →
      verify_code_go (n + 1) syn (some return_type2) label
          (Expression.mk .Return eff :: rest) body found_end vars references top =
        .error (.parseErr (placeholder_error
          ("Expected " ++ display return_type2 ++ ", found " ++ display last_type)))) ∧
    (name_safe last_type = none →
      verify_code_go (n + 1) syn (some return_type2) label
          (Expression.mk .Return eff :: rest) body found_end vars references top =
        .ok (FinalizedCodeBody.new
          (body ++ [FinalizedExpression.new .Return fe]) label true, vars2)) := by
  refine ⟨?_, ?_, ?_⟩
  · intro hsome hot fns hw
    simp only [verify_code_go, Expression.effect, Expression.expression_type, hv, hr, hne,
      hsome, hot, hw, Bool.not_false, Bool.true_and, if_true]
  · intro hsome hot
    simp only [verify_code_go, Expression.effect, Expression.expression_type, hv, hr, hne,
      hsome, hot, Bool.not_false, Bool.true_and, if_true, Bool.false_eq_true, if_false]
  · intro hnone
    simp only [verify_code_go, Expression.effect, Expression.expression_type, hv, hr, hne,
      hnone, Bool.not_false, Bool.true_and, Option.isSome_none, Bool.false_eq_true,
      Bool.and_false, if_false]

/-- Variables of the C3 counterexample: `g` of an unbounded generic type and
`r` of a reference type. -/
def c3_vars : SimpleVariableManager :=
  ⟨[("g", .Generic "T" []), ("r", .Reference (.Struct (primStruct "S")))]⟩

/-- C3 counterexample, two parts.  First, a `Return` of the generic-typed `g`
against expected type `S`: the types differ and `of_type` fails, so the claim
demands the error `Expected S, found T`; but the generic guard makes the
checker return the effect unchanged and succeed.  Second, a `Return` of the
reference-typed `r` (type `&S`) against expected type `S`: the types differ
and `of_type` holds (reference unwrapping), so the claim demands a
`Downcast`; but no impl of `S` for `S` is registered and the impl waiter
fails with its placeholder error instead. -/
theorem c3_counterexample :
    verify_code 3 emptyTable (some (.Struct (primStruct "S")))
        (.mk "t" [.mk .Return (.LoadVariable "g")]) c3_vars false true =
      .ok (.mk [.mk .Return (.LoadVariable "g")] "t" true, c3_vars) ∧
    ftBeq (.Generic "T" []) (.Struct (primStruct "S")) = false ∧
    of_type emptyTable.impls (.Generic "T" []) (.Struct (primStruct "S")) = false ∧
    verify_code 3 emptyTable (some (.Struct (primStruct "S")))
        (.mk "t" [.mk .Return (.LoadVariable "r")]) c3_vars false true =
      .error (.parseErr (placeholder_error "You should not see this! Report this!")) ∧
    of_type emptyTable.impls (.Reference (.Struct (primStruct "S")))
      (.Struct (primStruct "S")) = true :=
  ⟨rfl, rfl, rfl, rfl, rfl⟩

/-- C3 witness: returning a `Dog` where an `Animal` is expected, with the impl
registered, wraps the returned effect in a downcast to `Animal`. -/
theorem c3_witness :
    (verify_effect 2 dogTable (some (.Struct animalStruct)) (.LoadVariable "d") dogVars
        false = .ok (.LoadVariable "d", dogVars)) ∧
    get_return (.LoadVariable "d") dogVars = some (.Struct dogStruct) ∧
    ftBeq (.Struct dogStruct) (.Struct animalStruct) = false ∧
    verify_code_go 3 dogTable (some (.Struct animalStruct)) "t"
        [.mk .Return (.LoadVariable "d")] [] false dogVars false true =
      .ok (FinalizedCodeBody.new
        [.mk .Return (.Downcast (.LoadVariable "d") (.Struct animalStruct))] "t" true,
        dogVars) :=
  ⟨rfl, rfl, rfl,
    (c3_return_reconciliation 2 dogTable (.Struct animalStruct) "t" (.LoadVariable "d")
      [] [] false dogVars false true (.LoadVariable "d") dogVars (.Struct dogStruct)
      rfl rfl rfl).1 rfl rfl [⟨"Animal::feed"⟩] (by rfl)⟩

/-! ## C10: verification stops at the first Return -/

/-- The statement loop ignores everything after a `Return` statement: running
it on a prefix followed by a `Return` and arbitrary further statements equals
running it with the further statements removed. -/
theorem verify_code_go_stops_at_return :
    ∀ (pre : List Expression) (fuel : Nat) (syn : Syntax)
      (return_type : Option FinalizedTypes) (label : String) (eff : Effects)
      (rest : List Expression) (body : List FinalizedExpression) (found_end : Bool)
      (vars : SimpleVariableManager) (references top : Bool),
    verify_code_go fuel syn return_type label
        (pre ++ Expression.mk .Return eff :: rest) body found_end vars references top =
      verify_code_go fuel syn return_type label
        (pre ++ [Expression.mk .Return eff]) body found_end vars references top := by
  intro pre
  induction pre with
  | nil =>
    intro fuel syn return_type label eff rest body found_end vars references top
    cases fuel with
    | zero => rfl
    | succ n =>
      cases hv : verify_effect n syn return_type eff vars references with
      | error e => simp only [List.nil_append, verify_code_go, Expression.effect,
          Expression.expression_type, hv]
      | ok p =>
        cases p with
        | mk fe vars2 =>
          simp only [List.nil_append, verify_code_go, Expression.effect,
            Expression.expression_type, hv]
  | cons line pre ih =>
    intro fuel syn return_type label eff rest body found_end vars references top
    cases fuel with
    | zero => rfl
    | succ n =>
      obtain ⟨lt, le⟩ := line
      cases hv : verify_effect n syn return_type le vars references with
      | error e => simp only [List.cons_append, verify_code_go, Expression.effect,
          Expression.expression_type, hv]
      | ok p =>
        cases p with
        | mk fe vars2 =>
          cases lt with
          | Return =>
            simp only [List.cons_append, verify_code_go, Expression.effect,
              Expression.expression_type, hv]
          | Break =>
            simp only [List.cons_append, verify_code_go, Expression.effect,
              Expression.expression_type, hv]
            exact ih n syn return_type label eff rest _ _ vars2 references top
          | Line =>
            simp only [List.cons_append, verify_code_go, Expression.effect,
              Expression.expression_type, hv]
            exact ih n syn return_type label eff rest _ _ vars2 references top

/-- C10: `verify_code` stops at the first `Return` statement: statements after
it are never verified and the result, body and environment included, is the
same as if they were absent. -/
theorem c10_stops_at_first_return (fuel : Nat) (syn : Syntax)
    (return_type : Option FinalizedTypes) (label : String) (pre : List Expression)
    (eff : Effects) (rest : List Expression) (vars : SimpleVariableManager)
    (references top : Bool) :
    verify_code fuel syn return_type
        (.mk label (pre ++ Expression.mk .Return eff :: rest)) vars references top =
      verify_code fuel syn return_type
        (.mk label (pre ++ [Expression.mk .Return eff])) vars references top := by
  cases fuel with
  | zero => rfl
  | succ n =>
    simp only [verify_code, CodeBody.label, CodeBody.expressions]
    exact verify_code_go_stops_at_return pre n syn return_type label eff rest [] false
      vars references top

/-! ## C8: the returning flag -/

/-- The statement loop marks the finalized body returning exactly when the
last finalized statement of the produced body is a `Return` statement. -/
theorem verify_code_go_returning_iff :
    ∀ (exprs : List Expression) (fuel : Nat) (syn : Syntax)
      (return_type : Option FinalizedTypes) (label : String)
      (body : List FinalizedExpression) (found_end : Bool)
      (vars : SimpleVariableManager) (references top : Bool)
      (fb : FinalizedCodeBody) (vars2 : SimpleVariableManager),
    (∀ x ∈ body, x.expression_type ≠ ExpressionType.Return) →
    verify_code_go fuel syn return_type label exprs body found_end vars references top =
      .ok (fb, vars2) →
    (fb.returning = true ↔
      (fb.expressions.getLast?).map FinalizedExpression.expression_type =
        some ExpressionType.Return) := by
  intro exprs
  induction exprs with
  | nil =>
    intro fuel syn return_type label body found_end vars references top fb vars2 hinv h
    have hR : (body.getLast?).map FinalizedExpression.expression_type ≠
        some ExpressionType.Return := by
      cases hl : body.getLast? with
      | none => simp
      | some x =>
        intro hx
        have hx2 : x.expression_type = ExpressionType.Return := by simpa using hx
        have hmem : x ∈ body := by
          obtain ⟨hne, heq⟩ := List.mem_getLast?_eq_getLast (Option.mem_def.mpr hl)
          rw [heq]
          exact List.getLast_mem hne
        exact hinv x hmem hx2
    have hok : (Except.ok (FinalizedCodeBody.new body label false, vars) :
        Except CheckError (FinalizedCodeBody × SimpleVariableManager)) =
          Except.ok (fb, vars2) → (fb.returning = true ↔
      (fb.expressions.getLast?).map FinalizedExpression.expression_type =
        some ExpressionType.Return) := by
      intro hh
      simp only [Except.ok.injEq, Prod.mk.injEq] at hh
      rw [← hh.1]
      exact ⟨fun hf => absurd hf (by simp [FinalizedCodeBody.new,
        FinalizedCodeBody.returning]), fun hl => absurd (by
          simpa [FinalizedCodeBody.new, FinalizedCodeBody.expressions] using hl) hR⟩
    cases fuel with
    | zero =>
      simp only [verify_code_go] at h
      split at h
      · exact Except.noConfusion h
      · exact hok h
    | succ n =>
      simp only [verify_code_go] at h
      split at h
      · exact Except.noConfusion h
      · exact hok h
  | cons line rest ih =>
    intro fuel syn return_type label body found_end vars references top fb vars2 hinv h
    cases fuel with
    | zero => exact Except.noConfusion h
    | succ n =>
      obtain ⟨lt, le⟩ := line
      simp only [verify_code_go, Expression.effect, Expression.expression_type] at h
      split at h
      · exact Except.noConfusion h
      · rename_i fe v2 hv
        cases lt with
        | Return =>
          split at h
          · split at h
            · simp only [Except.ok.injEq, Prod.mk.injEq] at h
              rw [← h.1]
              simp [FinalizedCodeBody.new, FinalizedCodeBody.returning,
                FinalizedCodeBody.expressions, List.getLast?_concat,
                FinalizedExpression.new, FinalizedExpression.expression_type]
            · split at h
              · exact Except.noConfusion h
              · rename_i last_type hr
                split at h
                · split at h
                  · split at h
                    · exact Except.noConfusion h
                    · simp only [Except.ok.injEq, Prod.mk.injEq] at h
                      rw [← h.1]
                      simp [FinalizedCodeBody.new, FinalizedCodeBody.returning,
                        FinalizedCodeBody.expressions, List.getLast?_concat,
                        FinalizedExpression.new, FinalizedExpression.expression_type]
                  · exact Except.noConfusion h
                · simp only [Except.ok.injEq, Prod.mk.injEq] at h
                  rw [← h.1]
                  simp [FinalizedCodeBody.new, FinalizedCodeBody.returning,
                    FinalizedCodeBody.expressions, List.getLast?_concat,
                    FinalizedExpression.new, FinalizedExpression.expression_type]
          · exact absurd rfl (by assumption)
        | Break =>
          refine ih n syn return_type label
            (body ++ [FinalizedExpression.new .Break fe]) _ v2 references top fb vars2
            ?_ h
          intro x hx
          rcases List.mem_append.mp hx with hx | hx
          · exact hinv x hx
          · simp only [List.mem_singleton] at hx
            subst hx
            simp [FinalizedExpression.new, FinalizedExpression.expression_type]
        | Line =>
          refine ih n syn return_type label
            (body ++ [FinalizedExpression.new .Line fe]) _ v2 references top fb vars2
            ?_ h
          intro x hx
          rcases List.mem_append.mp hx with hx | hx
          · exact hinv x hx
          · simp only [List.mem_singleton] at hx
            subst hx
            simp [FinalizedExpression.new, FinalizedExpression.expression_type]

/-- C8: the finalized code body produced by `verify_code` is marked returning
exactly when the last verified statement of the body is a `Return`
statement. -/
theorem c8_returning_iff (fuel : Nat) (syn : Syntax)
    (return_type : Option FinalizedTypes) (code : CodeBody)
    (vars : SimpleVariableManager) (references top : Bool)
    (fb : FinalizedCodeBody) (vars2 : SimpleVariableManager)
    (h : verify_code fuel syn return_type code vars references top = .ok (fb, vars2)) :
    fb.returning = true ↔
      (fb.expressions.getLast?).map FinalizedExpression.expression_type =
        some ExpressionType.Return := by
  cases fuel with
  | zero => exact Except.noConfusion h
  | succ n =>
    simp only [verify_code] at h
    exact verify_code_go_returning_iff code.expressions n syn return_type code.label []
      false vars references top fb vars2 (by simp) h

/-- Expected finalization of the C8 witness body. -/
def c8_fb : FinalizedCodeBody := .mk [.mk .Return (.HeapStore (.UInt 1))] "top" true

/-- C8 witness: a body whose single statement is a `Return` finalizes marked
returning, with the `Return` as its last statement. -/
theorem c8_witness :
    verify_code 3 emptyTable none (.mk "top" [.mk .Return (.UInt 1)]) noVars false true =
      .ok (c8_fb, noVars) ∧
    (c8_fb.returning = true ↔
      (c8_fb.expressions.getLast?).map FinalizedExpression.expression_type =
        some ExpressionType.Return) :=
  ⟨by rfl,
    c8_returning_iff 3 emptyTable none (.mk "top" [.mk .Return (.UInt 1)]) noVars false
      true c8_fb noVars (by rfl)⟩

/-! ## C9: the end-of-body check of non-returning bodies -/

/-- Whether an effect is one of the terminating jump forms the statement loop
looks for. -/
def is_jump_effect : Effects → Bool
  | .CompareJump _ _ _ => true
  | .Jump _ => true
  | _ => false

/-- A non-jump effect leaves the `found_end` flag unchanged. -/
theorem found_end_update_no_jump (effect : Effects) (found_end : Bool)
    (h : is_jump_effect effect = false) :
    found_end_update effect found_end = found_end := by
  cases effect <;> simp_all [is_jump_effect, found_end_update]

/-- A jump effect sets the `found_end` flag. -/
theorem found_end_update_jump (effect : Effects) (found_end : Bool)
    (h : is_jump_effect effect = true) :
    found_end_update effect found_end = true := by
  cases effect <;> simp_all [is_jump_effect, found_end_update]

/-- A successful run of the statement loop over a non-top body without
`Return` statements is never marked returning, and if it started with the
`found_end` flag clear then some statement effect was a jump form. -/
theorem verify_code_go_ok_no_return :
    ∀ (exprs : List Expression) (fuel : Nat) (syn : Syntax)
      (return_type : Option FinalizedTypes) (label : String)
      (body : List FinalizedExpression) (found_end : Bool)
      (vars : SimpleVariableManager) (references : Bool),
    (∀ l ∈ exprs, l.expression_type ≠ ExpressionType.Return) →
    ∀ fb vars2,
    verify_code_go fuel syn return_type label exprs body found_end vars references false =
      .ok (fb, vars2) →
    fb.returning = false ∧
      (found_end = false → ∃ l ∈ exprs, is_jump_effect l.effect = true) := by
  intro exprs
  induction exprs with
  | nil =>
    intro fuel syn return_type label body found_end vars references hinv fb vars2 h
    have hstep : ∀ hh : (if (!found_end && !false) = true then
        (.error (.panicked ("Code body with label " ++ label ++
          " does not return or jump!")) :
          Except CheckError (FinalizedCodeBody × SimpleVariableManager))
        else .ok (FinalizedCodeBody.new body label false, vars)) = .ok (fb, vars2),
        fb.returning = false ∧
          (found_end = false → ∃ l ∈ ([] : List Expression), is_jump_effect l.effect = true) := by
      intro hh
      split at hh
      · exact Except.noConfusion hh
      · rename_i hcond
        simp only [Except.ok.injEq, Prod.mk.injEq] at hh
        refine ⟨by rw [← hh.1]; rfl, ?_⟩
        intro hflag
        subst hflag
        simp at hcond
    cases fuel with
    | zero => exact hstep h
    | succ n => exact hstep h
  | cons line rest ih =>
    intro fuel syn return_type label body found_end vars references hinv fb vars2 h
    cases fuel with
    | zero => exact Except.noConfusion h
    | succ n =>
      obtain ⟨lt, le⟩ := line
      simp only [verify_code_go, Expression.effect, Expression.expression_type] at h
      split at h
      · exact Except.noConfusion h
      · rename_i fe v2 hv
        cases lt with
        | Return =>
          exact absurd rfl (hinv (Expression.mk .Return le) (List.mem_cons_self _ _))
        | Break =>
          have hrec := ih n syn return_type label
            (body ++ [FinalizedExpression.new .Break fe]) (found_end_update le found_end)
            v2 references (fun l hl => hinv l (List.mem_cons_of_mem _ hl)) fb vars2 h
          refine ⟨hrec.1, ?_⟩
          intro hflag
          cases hj : is_jump_effect le with
          | true =>
            exact ⟨Expression.mk .Break le, List.mem_cons_self _ _,
              by simpa [Expression.effect] using hj⟩
          | false =>
            subst hflag
            obtain ⟨l, hl, hlj⟩ := hrec.2 (found_end_update_no_jump le false hj)
            exact ⟨l, List.mem_cons_of_mem _ hl, hlj⟩
        | Line =>
          have hrec := ih n syn return_type label
            (body ++ [FinalizedExpression.new .Line fe]) (found_end_update le found_end)
            v2 references (fun l hl => hinv l (List.mem_cons_of_mem _ hl)) fb vars2 h
          refine ⟨hrec.1, ?_⟩
          intro hflag
          cases hj : is_jump_effect le with
          | true =>
            exact ⟨Expression.mk .Line le, List.mem_cons_self _ _,
              by simpa [Expression.effect] using hj⟩
          | false =>
            subst hflag
            obtain ⟨l, hl, hlj⟩ := hrec.2 (found_end_update_no_jump le false hj)
            exact ⟨l, List.mem_cons_of_mem _ hl, hlj⟩

/-- A non-top body without `Return` statements and without any jump-form
statement, whose run is neither an ordinary checker error nor fuel
exhaustion, ends in a panic. -/
theorem verify_code_go_panics_without_end :
    ∀ (exprs : List Expression) (fuel : Nat) (syn : Syntax)
      (return_type : Option FinalizedTypes) (label : String)
      (body : List FinalizedExpression) (vars : SimpleVariableManager)
      (references : Bool),
    (∀ l ∈ exprs, l.expression_type ≠ ExpressionType.Return) →
    (∀ l ∈ exprs, is_jump_effect l.effect = false) →
    (∀ pe, verify_code_go fuel syn return_type label exprs body false vars references false ≠
      .error (.parseErr pe)) →
    verify_code_go fuel syn return_type label exprs body false vars references false ≠
      .error .outOfFuel →
    ∃ m, verify_code_go fuel syn return_type label exprs body false vars references false =
      .error (.panicked m) := by
  intro exprs
  induction exprs with
  | nil =>
    intro fuel syn return_type label body vars references _ _ _ _
    cases fuel with
    | zero => exact ⟨"Code body with label " ++ label ++ " does not return or jump!", rfl⟩
    | succ n => exact ⟨"Code body with label " ++ label ++ " does not return or jump!", rfl⟩
  | cons line rest ih =>
    intro fuel syn return_type label body vars references hinv hjump hparse hfuel
    cases fuel with
    | zero => exact absurd (by rfl) hfuel
    | succ n =>
      obtain ⟨lt, le⟩ := line
      cases hv : verify_effect n syn return_type le vars references with
      | error e =>
        have hgo : verify_code_go (n + 1) syn return_type label
            (Expression.mk lt le :: rest) body false vars references false = .error e := by
          simp only [verify_code_go, Expression.effect, Expression.expression_type, hv]
        cases e with
        | parseErr pe => exact absurd hgo (hparse pe)
        | panicked m => exact ⟨m, hgo⟩
        | outOfFuel => exact absurd hgo hfuel
      | ok p =>
        cases p with
        | mk fe v2 =>
          cases lt with
          | Return =>
            exact absurd rfl (hinv (Expression.mk .Return le) (List.mem_cons_self _ _))
          | Break =>
            have hflag : found_end_update le false = false :=
              found_end_update_no_jump le false
                (by simpa [Expression.effect] using
                  hjump (Expression.mk .Break le) (List.mem_cons_self _ _))
            have hgo : verify_code_go (n + 1) syn return_type label
                (Expression.mk .Break le :: rest) body false vars references false =
                verify_code_go n syn return_type label rest
                  (body ++ [FinalizedExpression.new .Break fe]) false v2 references
                  false := by
              simp only [verify_code_go, Expression.effect, Expression.expression_type,
                hv, hflag]
            rw [hgo] at hparse hfuel ⊢
            exact ih n syn return_type label (body ++ [FinalizedExpression.new .Break fe])
              v2 references (fun l hl => hinv l (List.mem_cons_of_mem _ hl))
              (fun l hl => hjump l (List.mem_cons_of_mem _ hl)) hparse hfuel
          | Line =>
            have hflag : found_end_update le false = false :=
              found_end_update_no_jump le false
                (by simpa [Expression.effect] using
                  hjump (Expression.mk .Line le) (List.mem_cons_self _ _))
            have hgo : verify_code_go (n + 1) syn return_type label
                (Expression.mk .Line le :: rest) body false vars references false =
                verify_code_go n syn return_type label rest
                  (body ++ [FinalizedExpression.new .Line fe]) false v2 references
                  false := by
              simp only [verify_code_go, Expression.effect, Expression.expression_type,
                hv, hflag]
            rw [hgo] at hparse hfuel ⊢
            exact ih n syn return_type label (body ++ [FinalizedExpression.new .Line fe])
              v2 references (fun l hl => hinv l (List.mem_cons_of_mem _ hl))
              (fun l hl => hjump l (List.mem_cons_of_mem _ hl)) hparse hfuel

/-- C9 (amended): for a non-top code body with no `Return` statement, a
successful run implies some statement of the body, not necessarily the
trailing one, is a terminating `CompareJump` or `Jump`, and the body is not
marked returning; and when no statement at all is a jump form, a run that is
neither an ordinary checker error nor fuel exhaustion of the embedding aborts
with a panic. -/
theorem c9_end_check (fuel : Nat) (syn : Syntax)
    (return_type : Option FinalizedTypes) (code : CodeBody)
    (vars : SimpleVariableManager) (references : Bool)
    (hnoret : ∀ l ∈ code.expressions, l.expression_type ≠ ExpressionType.Return) :
    (∀ fb vars2,
      verify_code fuel syn return_type code vars references false = .ok (fb, vars2) →
      fb.returning = false ∧ ∃ l ∈ code.expressions, is_jump_effect l.effect = true) ∧
    ((∀ l ∈ code.expressions, is_jump_effect l.effect = false) →
      (∀ pe, verify_code fuel syn return_type code vars references false ≠
        .error (.parseErr pe)) →
      verify_code fuel syn return_type code vars references false ≠ .error .outOfFuel →
      ∃ m, verify_code fuel syn return_type code vars references false =
        .error (.panicked m)) := by
  cases fuel with
  | zero =>
    constructor
    · intro fb vars2 h
      exact Except.noConfusion h
    · intro _ _ hfuel
      exact absurd (by rfl) hfuel
  | succ n =>
    constructor
    · intro fb vars2 h
      simp only [verify_code] at h
      have hrec := verify_code_go_ok_no_return code.expressions n syn return_type
        code.label [] false vars references hnoret fb vars2 h
      exact ⟨hrec.1, hrec.2 rfl⟩
    · intro hjump hparse hfuel
      simp only [verify_code] at hparse hfuel ⊢
      exact verify_code_go_panics_without_end code.expressions n syn return_type
        code.label [] vars references hnoret hjump hparse hfuel

/-- C9 counterexample.  A non-top body without `Return` whose first statement
is a `Jump` and whose trailing statement is an ordinary literal succeeds with
the returning flag clear: the claim demands a hard error whenever the trailing
effect is not a jump form, but the checker only requires some statement,
anywhere in the body, to be one. -/
theorem c9_counterexample :
    verify_code 5 emptyTable none
        (.mk "lbl" [.mk .Line (.Jump "a"), .mk .Line (.UInt 5)]) noVars false false =
      .ok (.mk [.mk .Line (.Jump "a"), .mk .Line (.HeapStore (.UInt 5))] "lbl" false,
        noVars) ∧
    is_jump_effect (Effects.UInt 5) = false ∧
    is_jump_effect (Effects.Jump "a") = true :=
  ⟨rfl, rfl, rfl⟩

/-- C9 witness: a non-top body consisting of a single literal statement, with
no jump form anywhere, panics. -/
theorem c9_witness :
    (∀ l ∈ (CodeBody.mk "lbl" [Expression.mk .Line (.UInt 5)]).expressions,
      l.expression_type ≠ ExpressionType.Return) ∧
    ∃ m, verify_code 3 emptyTable none (.mk "lbl" [.mk .Line (.UInt 5)]) noVars false
      false = .error (.panicked m) :=
  ⟨fun l hl => by
    simp only [CodeBody.expressions, List.mem_singleton] at hl
    subst hl
    decide,
   (c9_end_check 3 emptyTable none (.mk "lbl" [.mk .Line (.UInt 5)]) noVars false
      (fun l hl => by
        simp only [CodeBody.expressions, List.mem_singleton] at hl
        subst hl
        decide)).2
      (fun l hl => by
        simp only [CodeBody.expressions, List.mem_singleton] at hl
        subst hl
        decide)
      (fun pe hpe => by
        rw [show verify_code 3 emptyTable none (.mk "lbl" [.mk .Line (.UInt 5)]) noVars
            false false = .error (.panicked
              "Code body with label lbl does not return or jump!") from rfl] at hpe
        simp at hpe)
      (by
        rw [show verify_code 3 emptyTable none (.mk "lbl" [.mk .Line (.UInt 5)]) noVars
            false false = .error (.panicked
              "Code body with label lbl does not return or jump!") from rfl]
        simp)⟩

/-! ## C4: the implementation-call resolution loop -/

/-- C4 (amended): the resolution loop retries while it observes the
finished-impls flag false; after observing the flag true it performs exactly
one further attempt, whose outcome alone decides the result; when that final
impl waiter of that attempt finds no implementation at all, the result is the
not-found error carrying the span the caller provided; but when
implementations exist and none passes the method filter the final attempt
returns nothing and the code panics instead of producing an error. -/
theorem c4_resolution_loop (syn : Syntax) (states : Nat → ImplState)
    (vars : SimpleVariableManager) (finding_return_type data : FinalizedTypes)
    (method : String) (returning : Option String) (effects : List FinalizedEffects)
    (span : Span) (fuel t : Nat) :
    ((states t).finished = false →
      (try_get_impl_at syn (states t) vars finding_return_type data method returning
          effects span = .gotNone ∨
       try_get_impl_at syn (states t) vars finding_return_type data method returning
          effects span = .waiterPending) →
      impl_call_loop syn states vars finding_return_type data method returning effects
          span (fuel + 1) t =
        impl_call_loop syn states vars finding_return_type data method returning effects
          span fuel (t + 1)) ∧
    ((states t).finished = true →
      impl_call_loop syn states vars finding_return_type data method returning effects
          span (fuel + 1) t =
        (match try_get_impl_at syn (states t) vars finding_return_type data method
            returning effects span with
         | .gotSome out => .ok out
         | .gotNone => .error (.panicked
             ("Failed for " ++ display finding_return_type ++ " and " ++ display data))
         | .waiterPending => .error (.panicked "unreachable: a finished waiter never pends")
         | .failed e => .error e)) ∧
    ((states t).finished = true →
      impl_waiter_poll (states t) finding_return_type data
          ⟨span, "Nothing implements the given trait!"⟩ =
        .notFound ⟨span, "Nothing implements the given trait!"⟩ →
      impl_call_loop syn states vars finding_return_type data method returning effects
          span (fuel + 1) t =
        .error (.err ⟨span, "Nothing implements the given trait!"⟩)) := by
  refine ⟨?_, ?_, ?_⟩
  · intro hfin htry
    simp only [impl_call_loop, hfin, Bool.false_eq_true, if_false]
    rcases htry with h | h <;> rw [h]
  · intro hfin
    simp only [impl_call_loop, hfin, if_true]
  · intro hfin hpoll
    simp only [impl_call_loop, hfin, if_true, try_get_impl_at, hpoll]

/-- An always-finished schedule with an empty implementation graph. -/
def c4_emptyStates : Nat → ImplState := fun _ => ⟨true, []⟩

/-- An always-finished schedule where `Dog` implements `Animal` with the
single method `Animal::feed`. -/
def c4_dogStates : Nat → ImplState :=
  fun _ => ⟨true, [⟨"Dog", "Animal", [⟨"Animal::feed"⟩]⟩]⟩

/-- C4 counterexample.  The finished graph holds an impl of `Animal` for
`Dog`, but the requested method name `pet` matches none of its methods: the
final attempt finds nothing, and the resolution panics with the failed-for
message instead of producing a not-found error carrying the span of the caller, as
the claim demands for every final attempt that finds nothing. -/
theorem c4_counterexample :
    try_get_impl_at emptyTable (c4_dogStates 0) noVars (.Struct dogStruct)
        (.Struct animalStruct) "pet" none [] ⟨3, 7⟩ = .gotNone ∧
    impl_call_loop emptyTable c4_dogStates noVars (.Struct dogStruct)
        (.Struct animalStruct) "pet" none [] ⟨3, 7⟩ 2 0 =
      .error (.panicked "Failed for Dog and Animal") :=
  ⟨by rfl, by rfl⟩

/-- C4 witness: with the flag set and nothing registered the loop performs the
single final attempt and yields the not-found error carrying the span the
caller provided. -/
theorem c4_witness :
    (c4_emptyStates 0).finished = true ∧
    impl_call_loop emptyTable c4_emptyStates noVars (.Struct dogStruct)
        (.Struct animalStruct) "pet" none [] ⟨3, 7⟩ 2 0 =
      .error (.err ⟨⟨3, 7⟩, "Nothing implements the given trait!"⟩) :=
  ⟨rfl,
    (c4_resolution_loop emptyTable c4_emptyStates noVars (.Struct dogStruct)
      (.Struct animalStruct) "pet" none [] ⟨3, 7⟩ 1 0).2.2 rfl rfl⟩

end Raven
